import Mathlib

/-!
Verification of the NEOs_Monitoring_System CSV ingestion pipeline.

This file gives a shallow embedding, in Lean, of the data model and the
operations of the repository's CSV-to-relational ingestion code
(`app_sql_client.py`, `insercao_csv.py`, `mpcorb_loader.py`) and proves
properties of that embedding.  Python floats are modelled as exact
rationals (`ℚ`), SQL NULL and Python `None` as `Option`, database tables
as lists of typed rows, and `datetime.date` as a year/month/day record
together with the proleptic-Gregorian validity predicate and the
ordinal-day arithmetic that the `datetime` library guarantees.
-/

namespace NEOs

/-! ## Python / SQL primitive semantics -/

/-- SQL `COALESCE(old, new)`: keep `old` when it is non-NULL, else `new`. -/
def coalesce {α : Type} (old new : Option α) : Option α :=
  match old with
  | some v => some v
  | none => new

/-- SQL `NULLIF(x, '')`: an empty-string parameter becomes NULL. -/
def nullifBlank (x : Option String) : Option String :=
  match x with
  | some "" => none
  | v => v

/-- SQL `CASE WHEN col IS NULL OR col = '' THEN NULLIF(?, '') ELSE col END`:
fill a text column only when it is currently NULL or blank. -/
def fillBlank (old new : Option String) : Option String :=
  if old = none ∨ old = some "" then nullifBlank new else old

/-- SQL `CASE WHEN col IS NULL OR col = '' THEN COALESCE(NULLIF(?, ''), '') ELSE col END`
(used for the `prefix` column): like `fillBlank` but never stores NULL. -/
def fillBlankDefault (old new : Option String) : Option String :=
  if old = none ∨ old = some "" then some ((nullifBlank new).getD "") else old

/-- Python `x or d` for an optional float `x`: `None` and `0.0` are falsy. -/
def pyOrQ (x : Option ℚ) (d : ℚ) : ℚ :=
  match x with
  | none => d
  | some v => if v = 0 then d else v

/-- Python truthiness of an optional float: `None` and `0.0` are falsy. -/
def qTruthy (x : Option ℚ) : Bool :=
  match x with
  | none => false
  | some v => v ≠ 0

/-- Python `s or d` for strings: the empty string is falsy. -/
def pyOrS (s d : String) : String :=
  if s = "" then d else s

/-- ASCII whitespace, as stripped by Python `str.strip()`. -/
def isSpaceChar (c : Char) : Bool :=
  c = ' ' ∨ c = '\t' ∨ c = '\n' ∨ c = '\r' ∨ c = '\x0b' ∨ c = '\x0c'

/-- Python `str.strip()` on the character list. -/
def trimChars (l : List Char) : List Char :=
  ((l.dropWhile isSpaceChar).reverse.dropWhile isSpaceChar).reverse

/-- Python `str.strip()`. -/
def strTrim (s : String) : String :=
  String.mk (trimChars s.toList)

/-- Python `str.upper()` (ASCII). -/
def strUpper (s : String) : String :=
  String.mk (s.toList.map Char.toUpper)

/-- Python `str.lower()` (ASCII). -/
def strLower (s : String) : String :=
  String.mk (s.toList.map Char.toLower)

/-- Python string slicing `s[:k]`. -/
def strTake (s : String) (k : Nat) : String :=
  String.mk (s.toList.take k)

/-- Models `norm_text` (`app_sql_client.py:187`): trim, map blank and the
literal (case-insensitive) "NULL" to absence. -/
def norm_text (x : Option String) : Option String :=
  match x with
  | none => none
  | some s =>
    let v := strTrim s
    if v = "" ∨ strUpper v = "NULL" then none else some v

/-! ## Calendar dates

`datetime.date` is external library code; it is modelled here by a
year/month/day record, the proleptic-Gregorian validity predicate used by
`date(...)`'s constructor, and the day-ordinal arithmetic (`date.toordinal`
counts 0001-01-01 as day 1) that backs `date` subtraction and
`date + timedelta(days=k)`. -/

/-- Proleptic Gregorian leap-year rule. -/
def isLeap (y : Nat) : Bool :=
  (y % 4 == 0 && y % 100 != 0) || y % 400 == 0

/-- Length in days of month `m` of year `y` (months numbered 1..12). -/
def daysInMonth (y m : Nat) : Nat :=
  if m = 2 then (if isLeap y then 29 else 28)
  else if m = 4 ∨ m = 6 ∨ m = 9 ∨ m = 11 then 30
  else 31

/-- A calendar date, as carried by Python `datetime.date` values. -/
structure Date where
  year : Nat
  month : Nat
  day : Nat
deriving DecidableEq

/-- The dates `datetime.date` can represent: years 1..9999, valid
month/day combination. -/
def Date.Valid (d : Date) : Prop :=
  1 ≤ d.year ∧ d.year ≤ 9999 ∧ 1 ≤ d.month ∧ d.month ≤ 12 ∧
  1 ≤ d.day ∧ d.day ≤ daysInMonth d.year d.month

instance : DecidablePred Date.Valid := fun d => by
  unfold Date.Valid; infer_instance

/-- Days in the months of year `y` strictly before month `m`. -/
def daysBeforeMonth (y m : Nat) : Nat :=
  let leap : Nat := if isLeap y then 1 else 0
  match m with
  | 1 => 0
  | 2 => 31
  | 3 => 59 + leap
  | 4 => 90 + leap
  | 5 => 120 + leap
  | 6 => 151 + leap
  | 7 => 181 + leap
  | 8 => 212 + leap
  | 9 => 243 + leap
  | 10 => 273 + leap
  | 11 => 304 + leap
  | 12 => 334 + leap
  | _ => 0

/-- Days strictly before January 1 of year `y` (for `y ≥ 1`), counting from
day 1 = 0001-01-01. -/
def daysBeforeYear (y : Nat) : Nat :=
  let p := y - 1
  365 * p + p / 4 + p / 400 - p / 100

/-- Number of days of year `y`. -/
def yearLen (y : Nat) : Nat :=
  if isLeap y then 366 else 365

/-- Day ordinal of a date, with 0001-01-01 as day 1 (Python
`date.toordinal`). -/
def toOrd (d : Date) : Nat :=
  daysBeforeYear d.year + daysBeforeMonth d.year d.month + d.day

/-- Fueled year scan inverting `daysBeforeYear`: starting at year `y`,
consume whole years out of the remaining day count `n`. -/
def goYear : Nat → Nat → Nat → Nat × Nat
  | 0, y, n => (y, n)
  | fuel + 1, y, n =>
    if n ≤ yearLen y then (y, n) else goYear fuel (y + 1) (n - yearLen y)

/-- Fueled month scan within year `y`: starting at month `m`, consume whole
months out of the remaining day count `r`. -/
def goMonth (y : Nat) : Nat → Nat → Nat → Nat × Nat
  | 0, m, r => (m, r)
  | fuel + 1, m, r =>
    if r ≤ daysInMonth y m then (m, r) else goMonth y fuel (m + 1) (r - daysInMonth y m)

/-- Inverse of `toOrd` (Python `date.fromordinal`): recover the calendar
date of day ordinal `n ≥ 1`. -/
def fromOrd (n : Nat) : Date :=
  let p := goYear n 1 n
  let q := goMonth p.1 12 1 p.2
  ⟨p.1, q.1, q.2⟩

/-- Day ordinal of 1858-11-17, the Modified-Julian-Day epoch. -/
def mjdEpochOrd : Nat := 678576

/-- Models `date_to_mjd` (`app_sql_client.py:179`, `mpcorb_loader.py:40`):
`float((d - date(1858, 11, 17)).days)`; date subtraction is ordinal
subtraction. -/
def date_to_mjd (d : Date) : ℚ :=
  ((toOrd d : ℤ) - (mjdEpochOrd : ℤ) : ℤ)

/-- Python `int(x)` on a float: truncation toward zero. -/
def ratTrunc (x : ℚ) : ℤ :=
  Int.tdiv x.num (x.den : ℤ)

/-- Models `mjd_to_date` (`app_sql_client.py:183`, `mpcorb_loader.py:44`):
`date(1858, 11, 17) + timedelta(days=int(mjd))`; adding a day delta is
ordinal addition. -/
def mjd_to_date (mjd : ℚ) : Date :=
  fromOrd (((mjdEpochOrd : ℤ) + ratTrunc mjd).toNat)

/-- The Julian-Day value of a Modified-Julian-Day value, as used at
`app_sql_client.py:633` (`epoch = epoch_mjd + 2400000.5`). -/
def jd_of_mjd (mjd : ℚ) : ℚ := mjd + 2400000.5

/-! ## Packed MPC epoch decoder -/

/-- Models the inner `decode_md` of `mpc_packed_to_date`
(`app_sql_client.py:161`): digits 1..9 map to themselves, uppercase
letters map to 10 + alphabet index, everything else is unparseable. -/
def decode_md (ch : Char) : Option Nat :=
  if ch.isDigit then
    let v := ch.toNat - '0'.toNat
    if 1 ≤ v ∧ v ≤ 9 then some v else none
  else if 'A' ≤ ch ∧ ch ≤ 'Z' then
    some (10 + (ch.toNat - 'A'.toNat))
  else none

/-- Century selected by the first character of a packed MPC epoch. -/
def mpcCentury (ch : Char) : Option Nat :=
  if ch = 'I' then some 1800
  else if ch = 'J' then some 1900
  else if ch = 'K' then some 2000
  else none

/-- Core of `mpc_packed_to_date` (`app_sql_client.py:151`,
`mpcorb_loader.py:7`) on the character list of the (already stripped)
input: length check, century map, two year digits, month/day characters,
and the `date(...)` constructor's validity check. -/
def mpcCore (l : List Char) : Option Date :=
  match l with
  | [c0, c1, c2, c3, c4] =>
    match mpcCentury c0 with
    | none => none
    | some base =>
      if c1.isDigit ∧ c2.isDigit then
        let year := base + (c1.toNat - '0'.toNat) * 10 + (c2.toNat - '0'.toNat)
        match decode_md c3, decode_md c4 with
        | some m, some d =>
          if Date.Valid ⟨year, m, d⟩ then some ⟨year, m, d⟩ else none
        | _, _ => none
      else none
  | _ => none

/-- Models `mpc_packed_to_date`: strip the input, then decode. -/
def mpc_packed_to_date (packed : String) : Option Date :=
  mpcCore (trimChars packed.toList)

/-! ## Header normalization -/

/-- Name given to the `k`-th occurrence (`k ≥ 2`) of a duplicated header
field: a repeated "epoch" becomes "epoch_mpc", any other repeat gets a
numeric suffix (`app_sql_client.py:222`). -/
def dupName (c : String) (k : Nat) : String :=
  if c = "epoch" then "epoch_mpc" else c ++ "_dup" ++ Nat.repr k

/-- Functional update of the occurrence-count table. -/
def bumpCount (cnt : String → Nat) (c : String) (v : Nat) : String → Nat :=
  fun x => if x = c then v else cnt x

/-- Loop of `ensure_unique_header_fields` (`app_sql_client.py:216`),
carrying the Python `counts` dictionary as a count function (0 = absent). -/
def euhAux (cnt : String → Nat) : List String → List String
  | [] => []
  | c :: rest =>
    (if cnt c = 0 then c else dupName c (cnt c + 1)) ::
      euhAux (bumpCount cnt c (cnt c + 1)) rest

/-- Models `ensure_unique_header_fields`. -/
def ensure_unique_header_fields (fields : List String) : List String :=
  euhAux (fun _ => 0) fields

/-- Models `parse_header_fields` (`app_sql_client.py:213`) applied to the
already-split cells: trim, lower-case, strip leading BOM characters. -/
def parse_header_fields (cells : List String) : List String :=
  cells.map (fun c => String.mk ((strLower (strTrim c)).toList.dropWhile (· = '﻿')))

/-! ## NEO / PHA flag normalization -/

/-- Models the flag normalization of both loaders
(`app_sql_client.py:576`, `insercao_csv.py:557`):
`((row.get("neo") or "N").strip().upper()[:1] or "N")` followed by the
membership check `in ("Y", "N")`; string slicing is modelled on the
character list. -/
def normFlag (x : Option String) : String :=
  let base := pyOrS (x.getD "") "N"
  let t : List Char := (strUpper (strTrim base)).toList.take 1
  let t' : List Char := if t = [] then ['N'] else t
  if t' = ['Y'] ∨ t' = ['N'] then String.mk t' else "N"

/-- Modelled from the spec: "the first character of the trimmed,
upper-cased input when that character is Y or N, and N for every other
input, including a blank or missing field". -/
def specFlag (x : Option String) : String :=
  match (strUpper (strTrim (x.getD ""))).toList with
  | [] => "N"
  | c :: _ => if c = 'Y' ∨ c = 'N' then String.mk [c] else "N"

/-! ## Asteroid rows and upserts -/

/-- A row of the `Asteroid` table.  `created_at` is an abstract timestamp
tick standing for `SYSDATETIME()`. -/
structure AsteroidRow where
  id_internal : Int
  neo_id : Option String
  spkid : Option Int
  full_name : Option String
  pdes : Option String
  name : Option String
  pfx : Option String
  neo_flag : Option String
  pha_flag : Option String
  diameter : Option ℚ
  absolute_magnitude : Option ℚ
  albedo : Option ℚ
  diameter_sigma : Option ℚ
  created_at : Nat
deriving DecidableEq

/-- SQL `WHERE spkid = ?`: a NULL parameter matches no row. -/
def matchSpk (spkid : Option Int) (r : AsteroidRow) : Bool :=
  match spkid with
  | none => false
  | some s => r.spkid == some s

/-- SQL `WHERE neo_id = ?`: a NULL parameter matches no row. -/
def matchNeo (neo_id : Option String) (r : AsteroidRow) : Bool :=
  match neo_id with
  | none => false
  | some v => r.neo_id == some v

namespace AppSql

/-- The SET clause of `upsert_asteroid`'s update-by-spkid
(`app_sql_client.py:322`): text fields fill blanks only, numeric fields
COALESCE. -/
def mergeBySpk (neo_id : Option String) (full_name pdes : String)
    (name : Option String) (pfx : String) (neo_flag pha_flag : String)
    (diameter h albedo diameter_sigma : Option ℚ) (r : AsteroidRow) : AsteroidRow :=
  { r with
    neo_id := coalesce r.neo_id neo_id,
    full_name := fillBlank r.full_name (some full_name),
    pdes := fillBlank r.pdes (some pdes),
    name := fillBlank r.name name,
    pfx := fillBlankDefault r.pfx (some pfx),
    neo_flag := fillBlank r.neo_flag (some neo_flag),
    pha_flag := fillBlank r.pha_flag (some pha_flag),
    diameter := coalesce r.diameter diameter,
    absolute_magnitude := coalesce r.absolute_magnitude h,
    albedo := coalesce r.albedo albedo,
    diameter_sigma := coalesce r.diameter_sigma diameter_sigma }

/-- The SET clause of `upsert_asteroid`'s update-by-neo-id
(`app_sql_client.py:346`): as `mergeBySpk` but COALESCEs `spkid` instead
of `neo_id`. -/
def mergeByNeo (spkid : Option Int) (full_name pdes : String)
    (name : Option String) (pfx : String) (neo_flag pha_flag : String)
    (diameter h albedo diameter_sigma : Option ℚ) (r : AsteroidRow) : AsteroidRow :=
  { r with
    spkid := coalesce r.spkid spkid,
    full_name := fillBlank r.full_name (some full_name),
    pdes := fillBlank r.pdes (some pdes),
    name := fillBlank r.name name,
    pfx := fillBlankDefault r.pfx (some pfx),
    neo_flag := fillBlank r.neo_flag (some neo_flag),
    pha_flag := fillBlank r.pha_flag (some pha_flag),
    diameter := coalesce r.diameter diameter,
    absolute_magnitude := coalesce r.absolute_magnitude h,
    albedo := coalesce r.albedo albedo,
    diameter_sigma := coalesce r.diameter_sigma diameter_sigma }

/-- The row inserted by `upsert_asteroid` when neither key matches
(`app_sql_client.py:367`): note `absolute_magnitude` is defaulted to 0.0
when `h` is None. -/
def newAsteroidRow (id_internal : Int) (neo_id : Option String) (spkid : Option Int)
    (full_name pdes : String) (name : Option String) (pfx : String)
    (neo_flag pha_flag : String) (diameter h albedo diameter_sigma : Option ℚ)
    (now : Nat) : AsteroidRow :=
  { id_internal := id_internal, neo_id := neo_id, spkid := spkid,
    full_name := some full_name, pdes := some pdes, name := name, pfx := some pfx,
    neo_flag := some neo_flag, pha_flag := some pha_flag,
    diameter := diameter, absolute_magnitude := some (h.getD 0), albedo := albedo,
    diameter_sigma := diameter_sigma, created_at := now }

/-- Models `upsert_asteroid` (`app_sql_client.py:312`): look up by SPK-id,
then by natural id, merging blanks only; insert a fresh row with a
creation timestamp otherwise. -/
def upsert_asteroid (db : List AsteroidRow) (id_internal : Int)
    (neo_id : Option String) (spkid : Option Int) (full_name pdes : String)
    (name : Option String) (pfx : String) (neo_flag pha_flag : String)
    (diameter h albedo diameter_sigma : Option ℚ) (now : Nat) :
    String × List AsteroidRow :=
  if (db.find? (matchSpk spkid)).isSome then
    ("update", db.map (fun r => if matchSpk spkid r then
      mergeBySpk neo_id full_name pdes name pfx neo_flag pha_flag
        diameter h albedo diameter_sigma r else r))
  else if (db.find? (matchNeo neo_id)).isSome then
    ("update", db.map (fun r => if matchNeo neo_id r then
      mergeByNeo spkid full_name pdes name pfx neo_flag pha_flag
        diameter h albedo diameter_sigma r else r))
  else
    ("insert", db ++ [newAsteroidRow id_internal neo_id spkid full_name pdes name
      pfx neo_flag pha_flag diameter h albedo diameter_sigma now])

end AppSql

namespace Insercao

/-- Models `upsert_asteroid` of `insercao_csv.py:317`: same lookup order,
but the update overwrites every descriptive and numeric field with the
incoming values; only the missing key (`neo_id` resp. `spkid`) is
COALESCEd.  `neo_id`, `spkid` and `h` are required parameters there. -/
def upsert_asteroid (db : List AsteroidRow) (id_internal : Int)
    (neo_id : String) (spkid : Int) (full_name pdes : String)
    (name : Option String) (pfx : String) (neo_flag pha_flag : String)
    (diameter : Option ℚ) (h : ℚ) (albedo diameter_sigma : Option ℚ)
    (now : Nat) : String × List AsteroidRow :=
  if (db.find? (matchSpk (some spkid))).isSome then
    ("update", db.map (fun r => if matchSpk (some spkid) r then
      { r with
        neo_id := coalesce r.neo_id (some neo_id),
        full_name := some full_name, pdes := some pdes, name := name,
        pfx := some pfx, neo_flag := some neo_flag, pha_flag := some pha_flag,
        diameter := diameter, absolute_magnitude := some h, albedo := albedo,
        diameter_sigma := diameter_sigma } else r))
  else if (db.find? (matchNeo (some neo_id))).isSome then
    ("update", db.map (fun r => if matchNeo (some neo_id) r then
      { r with
        spkid := coalesce r.spkid (some spkid),
        full_name := some full_name, pdes := some pdes, name := name,
        pfx := some pfx, neo_flag := some neo_flag, pha_flag := some pha_flag,
        diameter := diameter, absolute_magnitude := some h, albedo := albedo,
        diameter_sigma := diameter_sigma } else r))
  else
    ("insert",
     db ++ [{ id_internal := id_internal, neo_id := some neo_id, spkid := some spkid,
              full_name := some full_name, pdes := some pdes, name := name,
              pfx := some pfx, neo_flag := some neo_flag, pha_flag := some pha_flag,
              diameter := diameter, absolute_magnitude := some h, albedo := albedo,
              diameter_sigma := diameter_sigma, created_at := now }])

end Insercao

/-! ## Orbit rows and inserts -/

/-- A row of the `Orbit` table (`i` is the inclination column, `cls` the
`class` column). -/
structure OrbitRow where
  id_orbita : String
  epoch : Option ℚ
  rms : Option ℚ
  moid_ld : Option ℚ
  epoch_mjd : Option ℚ
  epoch_cal : Option Date
  tp : Option ℚ
  tp_cal : Option Date
  per : Option ℚ
  per_y : Option ℚ
  equinox : Option String
  orbit_uncertainty : Option Int
  condition_code : Option Int
  e : Option ℚ
  a : Option ℚ
  q : Option ℚ
  i : Option ℚ
  om : Option ℚ
  w : Option ℚ
  ma : Option ℚ
  ad : Option ℚ
  n : Option ℚ
  moid : Option ℚ
  sigma_e : Option ℚ
  sigma_a : Option ℚ
  sigma_q : Option ℚ
  sigma_i : Option ℚ
  sigma_n : Option ℚ
  sigma_ma : Option ℚ
  sigma_om : Option ℚ
  sigma_w : Option ℚ
  sigma_ad : Option ℚ
  sigma_tp : Option ℚ
  sigma_per : Option ℚ
  id_internal : Option Int
  cls : Option String
deriving DecidableEq

/-- The parameters of `insert_orbit_if_new`, packaged
(`app_sql_client.py:380`; `inc` is the `i` column parameter). -/
structure OrbArgs where
  orbit_id : String
  id_internal : Option Int
  cls : String
  epoch : Option ℚ
  epoch_mjd : Option ℚ
  epoch_cal : Option Date
  equinox : String
  rms : Option ℚ
  moid_ld : Option ℚ
  moid : Option ℚ
  e : Option ℚ
  a : Option ℚ
  q : Option ℚ
  inc : Option ℚ
  om : Option ℚ
  w : Option ℚ
  ma : Option ℚ
  ad : Option ℚ
  n : Option ℚ
  tp : Option ℚ
  tp_cal : Option Date
  per : Option ℚ
  per_y : Option ℚ
  sigma_e : Option ℚ
  sigma_a : Option ℚ
  sigma_q : Option ℚ
  sigma_i : Option ℚ
  sigma_om : Option ℚ
  sigma_w : Option ℚ
  sigma_ma : Option ℚ
  sigma_ad : Option ℚ
  sigma_n : Option ℚ
  sigma_tp : Option ℚ
  sigma_per : Option ℚ
  orbit_uncertainty : Option Int
  condition_code : Option Int
deriving DecidableEq

/-- The database state touched by the ingestion pipeline. -/
structure DB where
  asteroids : List AsteroidRow
  orbits : List OrbitRow
  classes : List (String × String)
deriving DecidableEq

/-- Models `upsert_class` (`app_sql_client.py:304`): insert-if-absent
keyed by class code; an empty code is ignored; the stored description
defaults to the code. -/
def upsert_class (cs : List (String × String)) (cls desc : String) :
    List (String × String) :=
  if cls = "" then cs
  else if (cs.find? (fun p => p.1 == cls)).isSome then cs
  else cs ++ [(cls, pyOrS desc cls)]

/-- The guard of `app_sql_client.py:396`: the found orbit row belongs to a
different asteroid (both ids present and distinct). -/
def differentOwner (existing incoming : Option Int) : Bool :=
  match existing, incoming with
  | some e, some i => e != i
  | _, _ => false

namespace AppSql

/-- The SET clause of `insert_orbit_if_new`'s update branch
(`app_sql_client.py:399`): COALESCE on every element, sigma, date and id
column; blank-fill on the text columns `equinox` and `class`. -/
def updateOrbit (o : OrbArgs) (epoch_val : Option ℚ) (r : OrbitRow) : OrbitRow :=
  { r with
    epoch := coalesce r.epoch epoch_val,
    rms := coalesce r.rms o.rms,
    moid_ld := coalesce r.moid_ld o.moid_ld,
    epoch_mjd := coalesce r.epoch_mjd o.epoch_mjd,
    epoch_cal := coalesce r.epoch_cal o.epoch_cal,
    tp := coalesce r.tp o.tp,
    tp_cal := coalesce r.tp_cal o.tp_cal,
    per := coalesce r.per o.per,
    per_y := coalesce r.per_y o.per_y,
    equinox := fillBlank r.equinox (some o.equinox),
    orbit_uncertainty := coalesce r.orbit_uncertainty o.orbit_uncertainty,
    condition_code := coalesce r.condition_code o.condition_code,
    e := coalesce r.e o.e,
    a := coalesce r.a o.a,
    q := coalesce r.q o.q,
    i := coalesce r.i o.inc,
    om := coalesce r.om o.om,
    w := coalesce r.w o.w,
    ma := coalesce r.ma o.ma,
    ad := coalesce r.ad o.ad,
    n := coalesce r.n o.n,
    moid := coalesce r.moid o.moid,
    sigma_e := coalesce r.sigma_e o.sigma_e,
    sigma_a := coalesce r.sigma_a o.sigma_a,
    sigma_q := coalesce r.sigma_q o.sigma_q,
    sigma_i := coalesce r.sigma_i o.sigma_i,
    sigma_n := coalesce r.sigma_n o.sigma_n,
    sigma_ma := coalesce r.sigma_ma o.sigma_ma,
    sigma_om := coalesce r.sigma_om o.sigma_om,
    sigma_w := coalesce r.sigma_w o.sigma_w,
    sigma_ad := coalesce r.sigma_ad o.sigma_ad,
    sigma_tp := coalesce r.sigma_tp o.sigma_tp,
    sigma_per := coalesce r.sigma_per o.sigma_per,
    id_internal := coalesce r.id_internal o.id_internal,
    cls := fillBlank r.cls (some o.cls) }

/-- The row inserted by `insert_orbit_if_new` (`app_sql_client.py:465`);
missing numeric elements are zero-defaulted with Python `or 0.0`,
`epoch` via `epoch_val if epoch_val is not None else 0.0`. -/
def newOrbitRow (o : OrbArgs) (cls : String) (epoch_val : Option ℚ)
    (tpc : Option Date) : OrbitRow :=
  { id_orbita := o.orbit_id,
    epoch := some (epoch_val.getD 0),
    rms := some (pyOrQ o.rms 0),
    moid_ld := some (pyOrQ o.moid_ld 0),
    epoch_mjd := o.epoch_mjd,
    epoch_cal := o.epoch_cal,
    tp := some (pyOrQ o.tp 0),
    tp_cal := tpc,
    per := some (pyOrQ o.per 0),
    per_y := some (pyOrQ o.per_y 0),
    equinox := some (pyOrS o.equinox "J2000"),
    orbit_uncertainty := o.orbit_uncertainty,
    condition_code := o.condition_code,
    e := some (pyOrQ o.e 0),
    a := some (pyOrQ o.a 0),
    q := some (pyOrQ o.q 0),
    i := some (pyOrQ o.inc 0),
    om := some (pyOrQ o.om 0),
    w := some (pyOrQ o.w 0),
    ma := some (pyOrQ o.ma 0),
    ad := some (pyOrQ o.ad 0),
    n := some (pyOrQ o.n 0),
    moid := some (pyOrQ o.moid 0),
    sigma_e := o.sigma_e,
    sigma_a := o.sigma_a,
    sigma_q := o.sigma_q,
    sigma_i := o.sigma_i,
    sigma_n := o.sigma_n,
    sigma_ma := o.sigma_ma,
    sigma_om := o.sigma_om,
    sigma_w := o.sigma_w,
    sigma_ad := o.sigma_ad,
    sigma_tp := o.sigma_tp,
    sigma_per := o.sigma_per,
    id_internal := o.id_internal,
    cls := some cls }

/-- Models `insert_orbit_if_new` (`app_sql_client.py:380`): look up by
`id_orbita`; skip when the row belongs to a different asteroid; otherwise
fill-merge; insert a zero-defaulted new row when not found. -/
def insert_orbit_if_new (db : DB) (o : OrbArgs) (today : Date) : Bool × DB :=
  let epoch_val := coalesce o.epoch o.epoch_mjd
  match db.orbits.find? (fun r => r.id_orbita == o.orbit_id) with
  | some r =>
    if differentOwner r.id_internal o.id_internal then (false, db)
    else
      (false, { db with orbits := db.orbits.map (fun r' =>
          if r'.id_orbita == o.orbit_id then updateOrbit o epoch_val r' else r') })
  | none =>
    let cls := pyOrS o.cls "NEA"
    let classes :=
      if o.cls = "" then upsert_class db.classes "NEA" "Near Earth Asteroid"
      else db.classes
    let tpc := coalesce o.tp_cal (coalesce o.epoch_cal (some today))
    (true, { db with
             orbits := db.orbits ++ [newOrbitRow o cls epoch_val tpc],
             classes := classes })

end AppSql

namespace Insercao

/-- The SET clause of `insert_orbit_if_new`'s update branch in
`insercao_csv.py:384`: every column is overwritten with the incoming
value (missing numerics becoming 0.0) and `orbit_uncertainty` /
`condition_code` are reset to NULL. -/
def updateOrbit (o : OrbArgs) (epoch_val : ℚ) (r : OrbitRow) : OrbitRow :=
  { r with
    epoch := some epoch_val,
    rms := some (pyOrQ o.rms 0),
    moid_ld := some (pyOrQ o.moid_ld 0),
    epoch_mjd := o.epoch_mjd,
    epoch_cal := o.epoch_cal,
    tp := some (pyOrQ o.tp 0),
    tp_cal := o.tp_cal,
    per := some (pyOrQ o.per 0),
    per_y := some (pyOrQ o.per_y 0),
    equinox := some (pyOrS o.equinox "J2000"),
    orbit_uncertainty := none,
    condition_code := none,
    e := some (pyOrQ o.e 0),
    a := some (pyOrQ o.a 0),
    q := some (pyOrQ o.q 0),
    i := some (pyOrQ o.inc 0),
    om := some (pyOrQ o.om 0),
    w := some (pyOrQ o.w 0),
    ma := some (pyOrQ o.ma 0),
    ad := some (pyOrQ o.ad 0),
    n := some (pyOrQ o.n 0),
    moid := some (pyOrQ o.moid 0),
    sigma_e := o.sigma_e,
    sigma_a := o.sigma_a,
    sigma_q := o.sigma_q,
    sigma_i := o.sigma_i,
    sigma_n := o.sigma_n,
    sigma_ma := o.sigma_ma,
    sigma_om := o.sigma_om,
    sigma_w := o.sigma_w,
    sigma_ad := o.sigma_ad,
    sigma_tp := o.sigma_tp,
    sigma_per := o.sigma_per,
    id_internal := o.id_internal,
    cls := some o.cls }

/-- Models `insert_orbit_if_new` of `insercao_csv.py:371`: no
different-owner guard; an existing row is overwritten wholesale.
The source's required `id_internal : int` parameter is carried in
`o.id_internal` (callers always pass a value).  `orbit_uncertainty` and
`condition_code` are not parameters there and are stored as NULL. -/
def insert_orbit_if_new (db : DB) (o : OrbArgs) (today : Date) : Bool × DB :=
  let epoch_val : ℚ := (coalesce o.epoch o.epoch_mjd).getD 0
  if (db.orbits.find? (fun r => r.id_orbita == o.orbit_id)).isSome then
    (false, { db with orbits := db.orbits.map (fun r' =>
        if r'.id_orbita == o.orbit_id then updateOrbit o epoch_val r' else r') })
  else
    let cls := pyOrS o.cls "NEA"
    let classes :=
      if o.cls = "" then upsert_class db.classes "NEA" "Near Earth Asteroid"
      else db.classes
    let tpc := coalesce o.tp_cal (coalesce o.epoch_cal (some today))
    (true, { db with
             orbits := db.orbits ++
               [{ AppSql.newOrbitRow o cls (some epoch_val) tpc with
                  orbit_uncertainty := none,
                  condition_code := none }],
             classes := classes })

end Insercao

/-! ## Identity resolver -/

/-- The in-memory identity maps and surrogate-key counter of one
ingestion run (`neo_map`, `spk_map`, `next_id` of
`app_sql_client.py:513`). -/
structure ResState where
  neo_map : List (String × Int)
  spk_map : List (Int × Int)
  next_id : Int
deriving DecidableEq

/-- Python `neo_map.get(k)` / `k in neo_map`. -/
def lookupNeo (m : List (String × Int)) (k : String) : Option Int :=
  (m.find? (fun p => p.1 == k)).map (·.2)

/-- Python `spk_map.get(s)` / `s in spk_map`. -/
def lookupSpk (m : List (Int × Int)) (s : Int) : Option Int :=
  (m.find? (fun p => p.1 == s)).map (·.2)

/-- Models the per-row identity-resolution block of `load_neo_mpcorb_csv`
(`app_sql_client.py:555`): natural key first, then SPK-id, else mint a
fresh surrogate key, registering the keys of the taken branch. -/
def resolveIdentity (st : ResState) (neo_key : Option String)
    (spkid : Option Int) : Option Int × ResState :=
  match neo_key with
  | some k =>
    match lookupNeo st.neo_map k with
    | some idv => (some idv, st)
    | none =>
      match spkid with
      | some s =>
        match lookupSpk st.spk_map s with
        | some idv => (some idv, { st with neo_map := (k, idv) :: st.neo_map })
        | none =>
          (some st.next_id,
           { neo_map := (k, st.next_id) :: st.neo_map,
             spk_map := (s, st.next_id) :: st.spk_map,
             next_id := st.next_id + 1 })
      | none =>
        (some st.next_id,
         { st with
           neo_map := (k, st.next_id) :: st.neo_map,
           next_id := st.next_id + 1 })
  | none =>
    match spkid with
    | some s =>
      match lookupSpk st.spk_map s with
      | some idv => (some idv, st)
      | none =>
        (some st.next_id,
         { st with
           spk_map := (s, st.next_id) :: st.spk_map,
           next_id := st.next_id + 1 })
    | none => (none, st)

/-- The lower-cased natural-key used for the map lookups
(`neo_key = neo_id.lower() if neo_id else None`, `app_sql_client.py:543`). -/
def rowKey (neo_id : Option String) : Option String :=
  neo_id.map strLower

/-- Resolve a run of rows (each a `(neo_id, spkid)` pair) in order,
returning the surrogate key assigned to each row and the final state. -/
def runResolve (st : ResState) :
    List (Option String × Option Int) → List (Option Int) × ResState
  | [] => ([], st)
  | r :: rs =>
    let p := resolveIdentity st (rowKey r.1) r.2
    let rest := runResolve p.2 rs
    (p.1 :: rest.1, rest.2)

/-! ## Orbital derivation -/

/-- The orbital-element fields threaded through the derivation block of
`load_neo_mpcorb_csv` (`app_sql_client.py:646`). -/
structure DerivIn where
  q : Option ℚ
  a : Option ℚ
  e : Option ℚ
  ad : Option ℚ
  n : Option ℚ
  per : Option ℚ
  per_y : Option ℚ
  tp : Option ℚ
  epoch : Option ℚ
  ma : Option ℚ
  tp_cal : Option Date
deriving DecidableEq

/-- Models the derivation block (`app_sql_client.py:646`..`682` without
the final `tp_cal` defaulting): `q = a(1-e)` and `ad = a(1+e)` when the
target is None and `a`, `e` are present; `per = 360/n`, `per_y =
per/365.25` when `per` is None and `n` is truthy; `tp = epoch - ma/n`
(with `tp_cal` via `mjd_to_date(tp - 2400000.5)`) when `tp` is None,
`epoch` and `n` are truthy and `ma` is present. -/
def deriveElements (x : DerivIn) : DerivIn :=
  let q :=
    match x.q, x.a, x.e with
    | none, some av, some ev => some (av * (1 - ev))
    | q, _, _ => q
  let ad :=
    match x.ad, x.a, x.e with
    | none, some av, some ev => some (av * (1 + ev))
    | ad, _, _ => ad
  let pp : Option ℚ × Option ℚ :=
    match x.per, x.n with
    | none, some nv =>
      if nv = 0 then (x.per, x.per_y)
      else
        let p := 360 / nv
        (some p, if p = 0 then none else some (p / 365.25))
    | per, _ => (per, x.per_y)
  let tt : Option ℚ × Option Date :=
    match x.tp with
    | some v => (some v, x.tp_cal)
    | none =>
      if qTruthy x.epoch ∧ qTruthy x.n ∧ x.ma ≠ none then
        let tp_jd := x.epoch.getD 0 - x.ma.getD 0 / x.n.getD 0
        (some tp_jd, some (mjd_to_date (tp_jd - 2400000.5)))
      else (none, x.tp_cal)
  { x with q := q, ad := ad, per := pp.1, per_y := pp.2, tp := tt.1, tp_cal := tt.2 }

/-! ## The merged-CSV loader, per-row -/

/-- The parsed cell values of one row of the merged NEO/MPCORB CSV, after
`parse_float` / `parse_int` / `parse_date` and the alternate-column-name
fallbacks of `app_sql_client.py:599`..`696` have been applied.  Raw text
cells are carried as `Option String` (absent column = `none`). -/
structure CsvRow where
  id : Option String
  spkid : Option Int
  orbit_id_c : Option String
  cls : String
  cls_desc : String
  neo : Option String
  pha : Option String
  designation_c : Option String
  designation_full_c : Option String
  full_name_c : Option String
  pdes_c : Option String
  name_c : Option String
  pfx_c : Option String
  h : Option ℚ
  diameter : Option ℚ
  albedo : Option ℚ
  diameter_sigma : Option ℚ
  epoch : Option ℚ
  epoch_mjd : Option ℚ
  epoch_cal : Option Date
  epoch_mpc : String
  equinox_c : Option String
  rms : Option ℚ
  moid_ld : Option ℚ
  moid : Option ℚ
  e : Option ℚ
  a : Option ℚ
  q : Option ℚ
  inc : Option ℚ
  om : Option ℚ
  w : Option ℚ
  ma : Option ℚ
  ad : Option ℚ
  n : Option ℚ
  tp : Option ℚ
  tp_cal : Option Date
  per : Option ℚ
  per_y : Option ℚ
  sigma_e : Option ℚ
  sigma_a : Option ℚ
  sigma_q : Option ℚ
  sigma_i : Option ℚ
  sigma_om : Option ℚ
  sigma_w : Option ℚ
  sigma_ma : Option ℚ
  sigma_ad : Option ℚ
  sigma_n : Option ℚ
  sigma_tp : Option ℚ
  sigma_per : Option ℚ
  uncertainty : Option Int
deriving DecidableEq

/-- The mutable state of one `load_neo_mpcorb_csv` run: identity maps,
MPC orbit-id sequence, and the database. -/
structure LoaderState where
  res : ResState
  mpc_seq : Nat
  db : DB
deriving DecidableEq

/-- The epoch block of `load_neo_mpcorb_csv` (`app_sql_client.py:622`):
when `epoch`, `epoch_mjd` and `epoch_cal` are all falsy and a packed MPC
epoch is present, decode it and derive `epoch_mjd` and `epoch`
(JD = MJD + 2400000.5) from it. -/
def epochFromPacked (epoch epoch_mjd : Option ℚ) (epoch_cal : Option Date)
    (epoch_mpc : String) : Option ℚ × Option ℚ × Option Date :=
  if ¬ qTruthy epoch ∧ ¬ qTruthy epoch_mjd ∧ epoch_cal = none ∧ epoch_mpc ≠ "" then
    match mpc_packed_to_date epoch_mpc with
    | some d => (some (jd_of_mjd (date_to_mjd d)), some (date_to_mjd d), some d)
    | none => (epoch, epoch_mjd, none)
  else (epoch, epoch_mjd, epoch_cal)

/-- Identity resolution of one row of `load_neo_mpcorb_csv`: the
surrogate key assigned (if any) and the updated maps
(`app_sql_client.py:540`, `555`..`574`). -/
def rowAssigned (st : LoaderState) (row : CsvRow) : Option Int × ResState :=
  resolveIdentity st.res (rowKey (norm_text row.id)) row.spkid

/-- Orbit id of one row: supplied by the row, or synthesized as
`"MPC<sequence>"` with the sequence bumped (`app_sql_client.py:618`). -/
def rowOid (st : LoaderState) (row : CsvRow) : String × Nat :=
  match norm_text row.orbit_id_c with
  | some v => (v, st.mpc_seq)
  | none => ("MPC" ++ Nat.repr st.mpc_seq, st.mpc_seq + 1)

/-- The epoch triple of one row after the packed-MPC fallback
(`app_sql_client.py:622`..`633`). -/
def rowEp (row : CsvRow) : Option ℚ × Option ℚ × Option Date :=
  epochFromPacked row.epoch row.epoch_mjd row.epoch_cal row.epoch_mpc

/-- The derived orbital elements of one row (`app_sql_client.py:646`..`679`). -/
def rowDeriv (row : CsvRow) : DerivIn :=
  deriveElements
    { q := row.q, a := row.a, e := row.e, ad := row.ad, n := row.n,
      per := row.per, per_y := row.per_y, tp := row.tp, epoch := (rowEp row).1,
      ma := row.ma, tp_cal := row.tp_cal }

/-- The `insert_orbit_if_new` arguments assembled for one row
(`app_sql_client.py:698`..`708`, with the `tp_cal` defaulting of line 681). -/
def rowOrbArgs (st : LoaderState) (row : CsvRow) (today : Date) : OrbArgs :=
  { orbit_id := (rowOid st row).1, id_internal := (rowAssigned st row).1,
    cls := row.cls,
    epoch := (rowEp row).1, epoch_mjd := (rowEp row).2.1,
    epoch_cal := (rowEp row).2.2,
    equinox := strTrim (pyOrS (row.equinox_c.getD "") "J2000"),
    rms := row.rms, moid_ld := row.moid_ld,
    moid := row.moid, e := row.e, a := row.a, q := (rowDeriv row).q,
    inc := row.inc, om := row.om, w := row.w, ma := row.ma,
    ad := (rowDeriv row).ad, n := row.n,
    tp := (rowDeriv row).tp,
    tp_cal := coalesce (rowDeriv row).tp_cal (coalesce (rowEp row).2.2 (some today)),
    per := (rowDeriv row).per, per_y := (rowDeriv row).per_y,
    sigma_e := row.sigma_e, sigma_a := row.sigma_a, sigma_q := row.sigma_q,
    sigma_i := row.sigma_i, sigma_om := row.sigma_om, sigma_w := row.sigma_w,
    sigma_ma := row.sigma_ma, sigma_ad := row.sigma_ad, sigma_n := row.sigma_n,
    sigma_tp := row.sigma_tp, sigma_per := row.sigma_per,
    orbit_uncertainty := row.uncertainty, condition_code := none }

/-- The Asteroid table after one row's upsert: performed only when a
surrogate key was resolved, with the text-field normalization of
`app_sql_client.py:583`..`612`. -/
def rowAsteroids (st : LoaderState) (row : CsvRow) (now : Nat) :
    List AsteroidRow :=
  let designation := (norm_text row.designation_c).getD ""
  let designation_full := (norm_text row.designation_full_c).getD ""
  let full_name :=
    match norm_text row.full_name_c with
    | none => strTake (pyOrS (pyOrS designation_full designation) "UNKNOWN") 100
    | some v => strTake v 100
  let pdes :=
    match norm_text row.pdes_c with
    | none => strTake (pyOrS (pyOrS designation designation_full) "UNKNOWN") 50
    | some v => strTake v 50
  let name := (norm_text row.name_c).map (strTake · 100)
  let pfx := strTake ((norm_text row.pfx_c).getD "") 10
  match (rowAssigned st row).1 with
  | some i =>
    (AppSql.upsert_asteroid st.db.asteroids i (norm_text row.id) row.spkid
      full_name pdes name pfx (normFlag row.neo) (normFlag row.pha)
      row.diameter row.h row.albedo row.diameter_sigma now).2
  | none => st.db.asteroids

/-- Models one iteration of the row loop of `load_neo_mpcorb_csv`
(`app_sql_client.py:539`..`708`): class upsert, identity resolution,
flag and text normalization, asteroid upsert (only when a surrogate key
was resolved), orbit-id synthesis, epoch decoding, orbital derivation,
and the orbit insert/merge. -/
def processRow (st : LoaderState) (row : CsvRow) (now : Nat) (today : Date) :
    LoaderState :=
  { res := (rowAssigned st row).2,
    mpc_seq := (rowOid st row).2,
    db := (AppSql.insert_orbit_if_new
      { st.db with
        asteroids := rowAsteroids st row now,
        classes := upsert_class st.db.classes row.cls row.cls_desc }
      (rowOrbArgs st row today) today).2 }

/-! ## Spec-side characterizations and concrete sample data -/

/-- Modelled from the spec: month/day characters "encode month and day as
digits 1-9 directly or letters A-Z as 10 plus the alphabet index". -/
def specMD (ch : Char) : Option Nat :=
  if '1' ≤ ch ∧ ch ≤ '9' then some (ch.toNat - '0'.toNat)
  else if 'A' ≤ ch ∧ ch ≤ 'Z' then some (10 + (ch.toNat - 'A'.toNat))
  else none

/-- A stored Asteroid row whose diameter is already 10.0. -/
def sampleAst : AsteroidRow :=
  { id_internal := 1, neo_id := some "x", spkid := some 5,
    full_name := some "F", pdes := some "P", name := none, pfx := some "",
    neo_flag := some "N", pha_flag := some "N", diameter := some 10,
    absolute_magnitude := some 1, albedo := none, diameter_sigma := none,
    created_at := 0 }

/-- A stored Orbit row whose `rms` is already set (and whose `equinox`
holds the empty string), owned by asteroid 1. -/
def sampleOrbit : OrbitRow :=
  { id_orbita := "O1", epoch := some 1, rms := some 5, moid_ld := none,
    epoch_mjd := none, epoch_cal := none, tp := none, tp_cal := none,
    per := none, per_y := none, equinox := some "", orbit_uncertainty := none,
    condition_code := none, e := none, a := none, q := none, i := none,
    om := none, w := none, ma := none, ad := none, n := none, moid := none,
    sigma_e := none, sigma_a := none, sigma_q := none, sigma_i := none,
    sigma_n := none, sigma_ma := none, sigma_om := none, sigma_w := none,
    sigma_ad := none, sigma_tp := none, sigma_per := none,
    id_internal := some 1, cls := some "APO" }

/-- An update for orbit "O1" carrying a different `rms` and a non-empty
`equinox`, for the same owning asteroid 1. -/
def sampleOrbArgs : OrbArgs :=
  { orbit_id := "O1", id_internal := some 1, cls := "APO", epoch := some 2,
    epoch_mjd := none, epoch_cal := none, equinox := "B1950", rms := some 7,
    moid_ld := none, moid := none, e := none, a := none, q := none,
    inc := none, om := none, w := none, ma := none, ad := none, n := none,
    tp := none, tp_cal := none, per := none, per_y := none, sigma_e := none,
    sigma_a := none, sigma_q := none, sigma_i := none, sigma_om := none,
    sigma_w := none, sigma_ma := none, sigma_ad := none, sigma_n := none,
    sigma_tp := none, sigma_per := none, orbit_uncertainty := none,
    condition_code := none }

/-- A CSV row with neither natural key (`id` and `spkid` both absent) and
no supplied orbit id. -/
def keylessRow : CsvRow :=
  { id := none, spkid := none, orbit_id_c := none, cls := "", cls_desc := "",
    neo := none, pha := none, designation_c := none, designation_full_c := none,
    full_name_c := none, pdes_c := none, name_c := none, pfx_c := none,
    h := none, diameter := none, albedo := none, diameter_sigma := none,
    epoch := none, epoch_mjd := none, epoch_cal := none, epoch_mpc := "",
    equinox_c := none, rms := none, moid_ld := none, moid := none,
    e := some (1/5), a := some (3/2), q := none, inc := none, om := none,
    w := none, ma := none, ad := none, n := none, tp := none, tp_cal := none,
    per := none, per_y := none, sigma_e := none, sigma_a := none,
    sigma_q := none, sigma_i := none, sigma_om := none, sigma_w := none,
    sigma_ma := none, sigma_ad := none, sigma_n := none, sigma_tp := none,
    sigma_per := none, uncertainty := none }


/-- The "keep existing" half of the Asteroid merge contract: every
already-non-null numeric/key field keeps its value, every non-blank text
field keeps its value, identity and creation time are untouched. -/
def AstMergeKeeps (r u : AsteroidRow) : Prop :=
  (r.diameter ≠ none → u.diameter = r.diameter) ∧
  (r.absolute_magnitude ≠ none → u.absolute_magnitude = r.absolute_magnitude) ∧
  (r.albedo ≠ none → u.albedo = r.albedo) ∧
  (r.diameter_sigma ≠ none → u.diameter_sigma = r.diameter_sigma) ∧
  (r.spkid ≠ none → u.spkid = r.spkid) ∧
  (r.neo_id ≠ none → u.neo_id = r.neo_id) ∧
  (r.full_name ≠ none → r.full_name ≠ some "" → u.full_name = r.full_name) ∧
  (r.pdes ≠ none → r.pdes ≠ some "" → u.pdes = r.pdes) ∧
  (r.name ≠ none → r.name ≠ some "" → u.name = r.name) ∧
  (r.pfx ≠ none → r.pfx ≠ some "" → u.pfx = r.pfx) ∧
  (r.neo_flag ≠ none → r.neo_flag ≠ some "" → u.neo_flag = r.neo_flag) ∧
  (r.pha_flag ≠ none → r.pha_flag ≠ some "" → u.pha_flag = r.pha_flag) ∧
  u.id_internal = r.id_internal ∧ u.created_at = r.created_at

/-- The "fill if missing" half of the Asteroid merge contract: a NULL
numeric field receives the incoming value. -/
def AstMergeFills (r u : AsteroidRow) (diameter h albedo diameter_sigma : Option ℚ) : Prop :=
  (r.diameter = none → u.diameter = diameter) ∧
  (r.absolute_magnitude = none → u.absolute_magnitude = h) ∧
  (r.albedo = none → u.albedo = albedo) ∧
  (r.diameter_sigma = none → u.diameter_sigma = diameter_sigma)

/-- The field-preservation contract of the Orbit update: every
already-non-null column keeps its value (non-blank for the text columns
`equinox` and `class`), and the identity is untouched. -/
def OrbMergeKeeps (r u : OrbitRow) : Prop :=
  (r.epoch ≠ none → u.epoch = r.epoch) ∧
  (r.rms ≠ none → u.rms = r.rms) ∧
  (r.moid_ld ≠ none → u.moid_ld = r.moid_ld) ∧
  (r.epoch_mjd ≠ none → u.epoch_mjd = r.epoch_mjd) ∧
  (r.epoch_cal ≠ none → u.epoch_cal = r.epoch_cal) ∧
  (r.tp ≠ none → u.tp = r.tp) ∧
  (r.tp_cal ≠ none → u.tp_cal = r.tp_cal) ∧
  (r.per ≠ none → u.per = r.per) ∧
  (r.per_y ≠ none → u.per_y = r.per_y) ∧
  (r.orbit_uncertainty ≠ none → u.orbit_uncertainty = r.orbit_uncertainty) ∧
  (r.condition_code ≠ none → u.condition_code = r.condition_code) ∧
  (r.e ≠ none → u.e = r.e) ∧
  (r.a ≠ none → u.a = r.a) ∧
  (r.q ≠ none → u.q = r.q) ∧
  (r.i ≠ none → u.i = r.i) ∧
  (r.om ≠ none → u.om = r.om) ∧
  (r.w ≠ none → u.w = r.w) ∧
  (r.ma ≠ none → u.ma = r.ma) ∧
  (r.ad ≠ none → u.ad = r.ad) ∧
  (r.n ≠ none → u.n = r.n) ∧
  (r.moid ≠ none → u.moid = r.moid) ∧
  (r.sigma_e ≠ none → u.sigma_e = r.sigma_e) ∧
  (r.sigma_a ≠ none → u.sigma_a = r.sigma_a) ∧
  (r.sigma_q ≠ none → u.sigma_q = r.sigma_q) ∧
  (r.sigma_i ≠ none → u.sigma_i = r.sigma_i) ∧
  (r.sigma_n ≠ none → u.sigma_n = r.sigma_n) ∧
  (r.sigma_ma ≠ none → u.sigma_ma = r.sigma_ma) ∧
  (r.sigma_om ≠ none → u.sigma_om = r.sigma_om) ∧
  (r.sigma_w ≠ none → u.sigma_w = r.sigma_w) ∧
  (r.sigma_ad ≠ none → u.sigma_ad = r.sigma_ad) ∧
  (r.sigma_tp ≠ none → u.sigma_tp = r.sigma_tp) ∧
  (r.sigma_per ≠ none → u.sigma_per = r.sigma_per) ∧
  (r.id_internal ≠ none → u.id_internal = r.id_internal) ∧
  (r.equinox ≠ none → r.equinox ≠ some "" → u.equinox = r.equinox) ∧
  (r.cls ≠ none → r.cls ≠ some "" → u.cls = r.cls) ∧
  u.id_orbita = r.id_orbita

/-! ## Theorems -/

/-! ### Helper lemmas on the primitive merge operations -/

theorem coalesce_of_isSome {α : Type} (old new : Option α) (h : old.isSome) :
    coalesce old new = old := by
  cases old <;> simp_all [coalesce]

theorem fillBlank_keep (old new : Option String) (h1 : old ≠ none)
    (h2 : old ≠ some "") : fillBlank old new = old := by
  simp [fillBlank, h1, h2]

theorem fillBlankDefault_keep (old new : Option String) (h1 : old ≠ none)
    (h2 : old ≠ some "") : fillBlankDefault old new = old := by
  simp [fillBlankDefault, h1, h2]

theorem coalesce_ne_none {α : Type} (old new : Option α) (h : old ≠ none) :
    coalesce old new = old := by
  cases old <;> simp_all [coalesce]


/-! ### C10: flag normalization -/

/-- Claim C10: in both CSV loaders, the `neo_flag` and `pha_flag` values
passed to `upsert_asteroid` are always exactly "Y" or "N": the first
character of the trimmed, upper-cased input when that character is Y or
N, and "N" for every other input, including a blank or missing field. -/
theorem flag_always_Y_or_N (x : Option String) :
    (normFlag x = "Y" ∨ normFlag x = "N") ∧ normFlag x = specFlag x := by
  cases x with
  | none => exact ⟨by decide, by decide⟩
  | some s =>
    by_cases hs : s = ""
    · subst hs; exact ⟨by decide, by decide⟩
    · have hbase : pyOrS s "N" = s := by simp [pyOrS, hs]
      simp only [normFlag, specFlag, Option.getD, hbase]
      cases h : (strUpper (strTrim s)).toList with
      | nil => simp [h]
      | cons c cs =>
        simp only [h, List.take, List.cons.injEq, and_true]
        by_cases hY : c = 'Y'
        · subst hY; simp
        · by_cases hN : c = 'N'
          · subst hN; simp
          · simp [hY, hN]

/-! ### C8: packed MPC epoch decoder -/

theorem decode_md_eq_specMD (ch : Char) : decode_md ch = specMD ch := by
  have hiff : ch.isDigit = true ↔ 48 ≤ ch.toNat ∧ ch.toNat ≤ 57 := by
    simp [Char.isDigit]
    exact ⟨fun ⟨a, b⟩ => ⟨a, b⟩, fun ⟨a, b⟩ => ⟨a, b⟩⟩
  have e1 : ('1' ≤ ch ∧ ch ≤ '9') ↔ 49 ≤ ch.toNat ∧ ch.toNat ≤ 57 :=
    ⟨fun ⟨a, b⟩ => ⟨a, b⟩, fun ⟨a, b⟩ => ⟨a, b⟩⟩
  have e2 : ('A' ≤ ch ∧ ch ≤ 'Z') ↔ 65 ≤ ch.toNat ∧ ch.toNat ≤ 90 :=
    ⟨fun ⟨a, b⟩ => ⟨a, b⟩, fun ⟨a, b⟩ => ⟨a, b⟩⟩
  simp only [decode_md, specMD]
  by_cases hd : ch.isDigit
  · have hn := hiff.mp hd
    rw [if_pos hd]
    by_cases h9 : 49 ≤ ch.toNat
    · have hv : 1 ≤ ch.toNat - '0'.toNat ∧ ch.toNat - '0'.toNat ≤ 9 := by
        change 1 ≤ ch.toNat - 48 ∧ ch.toNat - 48 ≤ 9; omega
      rw [if_pos hv, if_pos (e1.mpr ⟨h9, hn.2⟩)]
    · have hv : ¬(1 ≤ ch.toNat - '0'.toNat ∧ ch.toNat - '0'.toNat ≤ 9) := by
        change ¬(1 ≤ ch.toNat - 48 ∧ ch.toNat - 48 ≤ 9); omega
      have hne1 : ¬('1' ≤ ch ∧ ch ≤ '9') := by rw [e1]; omega
      have hne2 : ¬('A' ≤ ch ∧ ch ≤ 'Z') := by rw [e2]; omega
      rw [if_neg hv, if_neg hne1, if_neg hne2]
  · have hn : ¬(48 ≤ ch.toNat ∧ ch.toNat ≤ 57) := fun h => hd (hiff.mpr h)
    have hne1 : ¬('1' ≤ ch ∧ ch ≤ '9') := by rw [e1]; omega
    rw [if_neg hd, if_neg hne1]

theorem mpcCentury_eq_some (c : Char) (b : Nat) :
    mpcCentury c = some b ↔
      ((c = 'I' ∧ b = 1800) ∨ (c = 'J' ∧ b = 1900) ∨ (c = 'K' ∧ b = 2000)) := by
  simp only [mpcCentury]
  split_ifs with h1 h2 h3 <;> simp_all [eq_comm]

theorem mpcCore_char (l : List Char) (dt : Date) :
    mpcCore l = some dt ↔
      ∃ c0 c1 c2 c3 c4 base m d,
        l = [c0, c1, c2, c3, c4] ∧
        ((c0 = 'I' ∧ base = 1800) ∨ (c0 = 'J' ∧ base = 1900) ∨ (c0 = 'K' ∧ base = 2000)) ∧
        c1.isDigit = true ∧ c2.isDigit = true ∧
        specMD c3 = some m ∧ specMD c4 = some d ∧
        dt = ⟨base + (c1.toNat - '0'.toNat) * 10 + (c2.toNat - '0'.toNat), m, d⟩ ∧
        dt.Valid := by
  constructor
  · intro h
    rcases l with _ | ⟨c0, l⟩
    · simp [mpcCore] at h
    rcases l with _ | ⟨c1, l⟩
    · simp [mpcCore] at h
    rcases l with _ | ⟨c2, l⟩
    · simp [mpcCore] at h
    rcases l with _ | ⟨c3, l⟩
    · simp [mpcCore] at h
    rcases l with _ | ⟨c4, l⟩
    · simp [mpcCore] at h
    rcases l with _ | ⟨c5, l⟩
    case cons.cons.cons.cons.cons.cons => simp [mpcCore] at h
    simp only [mpcCore] at h
    split at h
    · exact absurd h (by simp)
    rename_i base hc
    split at h
    case isFalse => exact absurd h (by simp)
    rename_i hdig
    rw [decode_md_eq_specMD c3, decode_md_eq_specMD c4] at h
    split at h
    case h_2 => exact absurd h (by simp)
    rename_i m d h3 h4
    split at h
    case isFalse => exact absurd h (by simp)
    rename_i hval
    refine ⟨c0, c1, c2, c3, c4, base, m, d, rfl, (mpcCentury_eq_some c0 base).mp hc,
      hdig.1, hdig.2, h3, h4, ?_, ?_⟩
    · exact (Option.some.injEq _ _ ▸ h).symm
    · exact (Option.some.inj h) ▸ hval
  · rintro ⟨c0, c1, c2, c3, c4, base, m, d, rfl, hcen, h1, h2, h3, h4, rfl, hval⟩
    have hc : mpcCentury c0 = some base := (mpcCentury_eq_some c0 base).mpr hcen
    simp only [mpcCore, hc, decode_md_eq_specMD, h3, h4, h1, h2, and_self, if_true, hval]

/-- Claim C8: the packed MPC epoch decoder accepts exactly the
5-character codes whose first character is I, J or K (century 1800, 1900,
2000), whose next two characters are digits, and whose last two
characters each encode month and day as digits 1-9 directly or letters
A-Z as 10 plus the alphabet index, subject to the decoded date being a
real calendar date; anything else yields absence, and "K25BL" decodes to
2025-11-21. -/
theorem mpc_packed_decoder_correct :
    (∀ (l : List Char) (dt : Date),
      mpcCore l = some dt ↔
        ∃ c0 c1 c2 c3 c4 base m d,
          l = [c0, c1, c2, c3, c4] ∧
          ((c0 = 'I' ∧ base = 1800) ∨ (c0 = 'J' ∧ base = 1900) ∨ (c0 = 'K' ∧ base = 2000)) ∧
          c1.isDigit = true ∧ c2.isDigit = true ∧
          specMD c3 = some m ∧ specMD c4 = some d ∧
          dt = ⟨base + (c1.toNat - '0'.toNat) * 10 + (c2.toNat - '0'.toNat), m, d⟩ ∧
          dt.Valid) ∧
    mpc_packed_to_date "K25BL" = some ⟨2025, 11, 21⟩ :=
  ⟨mpcCore_char, by decide⟩

/-- Witness for C8: the decoder characterization applied at the concrete
code "K25BL". -/
theorem mpc_packed_decoder_correct_witness :
    ∃ c0 c1 c2 c3 c4 base m d,
      ['K', '2', '5', 'B', 'L'] = [c0, c1, c2, c3, c4] ∧
      ((c0 = 'I' ∧ base = 1800) ∨ (c0 = 'J' ∧ base = 1900) ∨ (c0 = 'K' ∧ base = 2000)) ∧
      c1.isDigit = true ∧ c2.isDigit = true ∧
      specMD c3 = some m ∧ specMD c4 = some d ∧
      (⟨2025, 11, 21⟩ : Date) = ⟨base + (c1.toNat - '0'.toNat) * 10 + (c2.toNat - '0'.toNat), m, d⟩ ∧
      (⟨2025, 11, 21⟩ : Date).Valid :=
  (mpc_packed_decoder_correct.1 ['K', '2', '5', 'B', 'L'] ⟨2025, 11, 21⟩).mp (by decide)

/-! ### C1: asteroid upsert merge policy -/

theorem mergeBySpk_keeps (neo_id : Option String) (full_name pdes : String)
    (name : Option String) (pfx : String) (neo_flag pha_flag : String)
    (diameter h albedo diameter_sigma : Option ℚ) (r : AsteroidRow) :
    AstMergeKeeps r (AppSql.mergeBySpk neo_id full_name pdes name pfx neo_flag
      pha_flag diameter h albedo diameter_sigma r) ∧
    AstMergeFills r (AppSql.mergeBySpk neo_id full_name pdes name pfx neo_flag
      pha_flag diameter h albedo diameter_sigma r) diameter h albedo diameter_sigma := by
  unfold AstMergeKeeps AstMergeFills AppSql.mergeBySpk
  refine ⟨⟨?_, ?_, ?_, ?_, ?_, ?_, ?_, ?_, ?_, ?_, ?_, ?_, rfl, rfl⟩, ?_, ?_, ?_, ?_⟩ <;>
    intro h1 <;>
    first
      | (intro h2; simp [fillBlank_keep _ _ h1 h2, fillBlankDefault_keep _ _ h1 h2])
      | simp [coalesce_ne_none _ _ h1]
      | simp [h1, coalesce]

theorem mergeByNeo_keeps (spkid : Option Int) (full_name pdes : String)
    (name : Option String) (pfx : String) (neo_flag pha_flag : String)
    (diameter h albedo diameter_sigma : Option ℚ) (r : AsteroidRow) :
    AstMergeKeeps r (AppSql.mergeByNeo spkid full_name pdes name pfx neo_flag
      pha_flag diameter h albedo diameter_sigma r) ∧
    AstMergeFills r (AppSql.mergeByNeo spkid full_name pdes name pfx neo_flag
      pha_flag diameter h albedo diameter_sigma r) diameter h albedo diameter_sigma := by
  unfold AstMergeKeeps AstMergeFills AppSql.mergeByNeo
  refine ⟨⟨?_, ?_, ?_, ?_, ?_, ?_, ?_, ?_, ?_, ?_, ?_, ?_, rfl, rfl⟩, ?_, ?_, ?_, ?_⟩ <;>
    intro h1 <;>
    first
      | (intro h2; simp [fillBlank_keep _ _ h1 h2, fillBlankDefault_keep _ _ h1 h2])
      | simp [coalesce_ne_none _ _ h1]
      | simp [h1, coalesce]

/-- Claim C1 (amended): for every `app_sql_client.py` Asteroid upsert on a
row that already exists (matched first by SPK-id, then by natural id),
the merge fills only blank/null text fields and keeps every
already-non-null numeric field unchanged (diameter 10.0 stays 10.0), and
a row matching neither key is inserted as a new row with a creation
timestamp.  (`insercao_csv.py`'s upsert overwrites instead; see the
counterexample.) -/
theorem upsert_asteroid_merge_policy (db : List AsteroidRow) (id_internal : Int)
    (neo_id : Option String) (spkid : Option Int) (full_name pdes : String)
    (name : Option String) (pfx : String) (neo_flag pha_flag : String)
    (diameter h albedo diameter_sigma : Option ℚ) (now : Nat) :
    let out := AppSql.upsert_asteroid db id_internal neo_id spkid full_name pdes
      name pfx neo_flag pha_flag diameter h albedo diameter_sigma now
    ((db.find? (matchSpk spkid)).isSome →
      out.1 = "update" ∧ out.2.length = db.length ∧
      ∀ j, (hj : j < db.length) →
        (matchSpk spkid db[j] = false → out.2[j]? = some db[j]) ∧
        (matchSpk spkid db[j] = true →
          ∃ u, out.2[j]? = some u ∧ AstMergeKeeps db[j] u ∧
            AstMergeFills db[j] u diameter h albedo diameter_sigma ∧
            (db[j].diameter = some 10 → u.diameter = some 10))) ∧
    (¬ (db.find? (matchSpk spkid)).isSome → (db.find? (matchNeo neo_id)).isSome →
      out.1 = "update" ∧ out.2.length = db.length ∧
      ∀ j, (hj : j < db.length) →
        (matchNeo neo_id db[j] = false → out.2[j]? = some db[j]) ∧
        (matchNeo neo_id db[j] = true →
          ∃ u, out.2[j]? = some u ∧ AstMergeKeeps db[j] u ∧
            AstMergeFills db[j] u diameter h albedo diameter_sigma ∧
            (db[j].diameter = some 10 → u.diameter = some 10))) ∧
    (¬ (db.find? (matchSpk spkid)).isSome → ¬ (db.find? (matchNeo neo_id)).isSome →
      out.1 = "insert" ∧
      out.2 = db ++ [AppSql.newAsteroidRow id_internal neo_id spkid full_name pdes
        name pfx neo_flag pha_flag diameter h albedo diameter_sigma now] ∧
      (AppSql.newAsteroidRow id_internal neo_id spkid full_name pdes
        name pfx neo_flag pha_flag diameter h albedo diameter_sigma now).created_at = now) := by
  intro out
  refine ⟨?_, ?_, ?_⟩
  · intro hsp
    have hout : out = ("update", db.map (fun r => if matchSpk spkid r then
        AppSql.mergeBySpk neo_id full_name pdes name pfx neo_flag pha_flag
          diameter h albedo diameter_sigma r else r)) := by
      simp only [out, AppSql.upsert_asteroid, if_pos hsp]
    rw [hout]
    refine ⟨rfl, by simp, ?_⟩
    intro j hj
    constructor
    · intro hm
      simp only [List.getElem?_map, List.getElem?_eq_getElem hj, Option.map_some]
      simp [hm]
    · intro hm
      refine ⟨AppSql.mergeBySpk neo_id full_name pdes name pfx neo_flag pha_flag
        diameter h albedo diameter_sigma db[j], ?_, (mergeBySpk_keeps _ _ _ _ _ _ _ _ _ _ _ _).1,
        (mergeBySpk_keeps _ _ _ _ _ _ _ _ _ _ _ _).2, ?_⟩
      · simp only [List.getElem?_map, List.getElem?_eq_getElem hj, Option.map_some]
        simp [hm]
      · intro hd
        have hk := (mergeBySpk_keeps neo_id full_name pdes name pfx neo_flag pha_flag
          diameter h albedo diameter_sigma db[j]).1.1 (by rw [hd]; exact Option.some_ne_none _)
        rw [hk, hd]
  · intro hsp hne
    have hout : out = ("update", db.map (fun r => if matchNeo neo_id r then
        AppSql.mergeByNeo spkid full_name pdes name pfx neo_flag pha_flag
          diameter h albedo diameter_sigma r else r)) := by
      simp only [out, AppSql.upsert_asteroid, if_neg hsp, if_pos hne]
    rw [hout]
    refine ⟨rfl, by simp, ?_⟩
    intro j hj
    constructor
    · intro hm
      simp only [List.getElem?_map, List.getElem?_eq_getElem hj, Option.map_some]
      simp [hm]
    · intro hm
      refine ⟨AppSql.mergeByNeo spkid full_name pdes name pfx neo_flag pha_flag
        diameter h albedo diameter_sigma db[j], ?_, (mergeByNeo_keeps _ _ _ _ _ _ _ _ _ _ _ _).1,
        (mergeByNeo_keeps _ _ _ _ _ _ _ _ _ _ _ _).2, ?_⟩
      · simp only [List.getElem?_map, List.getElem?_eq_getElem hj, Option.map_some]
        simp [hm]
      · intro hd
        have hk := (mergeByNeo_keeps spkid full_name pdes name pfx neo_flag pha_flag
          diameter h albedo diameter_sigma db[j]).1.1 (by rw [hd]; exact Option.some_ne_none _)
        rw [hk, hd]
  · intro hsp hne
    refine ⟨?_, ?_, rfl⟩ <;>
      simp only [out, AppSql.upsert_asteroid, if_neg hsp, if_neg hne]

/-- Counterexample to C1 as stated: `insercao_csv.py`'s `upsert_asteroid`,
one of the claim's cited implementations, overwrites an existing
diameter 10.0 with the incoming 99.0 on an update matched by SPK-id. -/
theorem upsert_asteroid_overwrite_cex :
    sampleAst.diameter = some 10 ∧
    (Insercao.upsert_asteroid [sampleAst] 1 "x" 5 "F" "P" none "" "N" "N"
      (some 99) 1 none none 7).1 = "update" ∧
    (Insercao.upsert_asteroid [sampleAst] 1 "x" 5 "F" "P" none "" "N" "N"
      (some 99) 1 none none 7).2.map (fun r => r.diameter) = [some 99] := by
  decide

/-- Witness for C1: the amended merge policy applied to a concrete
one-row database matched by SPK-id. -/
theorem upsert_asteroid_merge_policy_witness :
    (AppSql.upsert_asteroid [sampleAst] 1 (some "x") (some 5) "F" "P" none "" "N" "N"
      (some 99) (some 2) none none 7).1 = "update" ∧
    ∃ u, (AppSql.upsert_asteroid [sampleAst] 1 (some "x") (some 5) "F" "P" none "" "N" "N"
      (some 99) (some 2) none none 7).2[0]? = some u ∧ AstMergeKeeps sampleAst u ∧
      AstMergeFills sampleAst u (some 99) (some 2) none none ∧
      (sampleAst.diameter = some 10 → u.diameter = some 10) := by
  have H := (upsert_asteroid_merge_policy [sampleAst] 1 (some "x") (some 5) "F" "P"
    none "" "N" "N" (some 99) (some 2) none none 7).1 (by decide)
  exact ⟨H.1, by simpa using (H.2.2 0 (by decide)).2 (by decide)⟩

/-! ### C2: orbit update fills only missing fields -/

theorem updateOrbit_keeps (o : OrbArgs) (epoch_val : Option ℚ) (r : OrbitRow) :
    OrbMergeKeeps r (AppSql.updateOrbit o epoch_val r) := by
  unfold OrbMergeKeeps AppSql.updateOrbit
  refine ⟨?_, ?_, ?_, ?_, ?_, ?_, ?_, ?_, ?_, ?_, ?_, ?_, ?_, ?_, ?_, ?_, ?_, ?_, ?_, ?_, ?_, ?_, ?_, ?_, ?_, ?_, ?_, ?_, ?_, ?_, ?_, ?_, ?_, ?_, ?_, rfl⟩ <;>
    first
      | (intro h1 h2; simp [fillBlank_keep _ _ h1 h2])
      | (intro h1; simp [coalesce_ne_none _ _ h1])

/-- Claim C2 (amended): for every Orbit update through
`app_sql_client.py`'s `insert_orbit_if_new` (existing `id_orbita`, same or
unset owning asteroid), every already-non-null column of the existing row
keeps its value — with the caveat that the text columns `equinox` and
`class` are also refilled when they hold the empty string — and rows with
a different `id_orbita` are untouched.  (`insercao_csv.py`'s version
overwrites instead; see the counterexample.) -/
theorem insert_orbit_update_fills_only (db : DB) (o : OrbArgs) (today : Date)
    (r0 : OrbitRow)
    (hfind : db.orbits.find? (fun r => r.id_orbita == o.orbit_id) = some r0)
    (hown : differentOwner r0.id_internal o.id_internal = false) :
    let out := AppSql.insert_orbit_if_new db o today
    out.1 = false ∧ out.2.asteroids = db.asteroids ∧
    out.2.orbits.length = db.orbits.length ∧
    ∀ j, (hj : j < db.orbits.length) →
      ((db.orbits[j].id_orbita == o.orbit_id) = false →
        out.2.orbits[j]? = some db.orbits[j]) ∧
      ((db.orbits[j].id_orbita == o.orbit_id) = true →
        ∃ u, out.2.orbits[j]? = some u ∧ OrbMergeKeeps db.orbits[j] u) := by
  intro out
  have hout : out = (false, { db with orbits := db.orbits.map (fun r' =>
      if r'.id_orbita == o.orbit_id then
        AppSql.updateOrbit o (coalesce o.epoch o.epoch_mjd) r' else r') }) := by
    simp only [out, AppSql.insert_orbit_if_new, hfind, hown]
    rfl
  rw [hout]
  refine ⟨rfl, rfl, by simp, ?_⟩
  intro j hj
  constructor
  · intro hm
    simp only [List.getElem?_map, List.getElem?_eq_getElem hj, Option.map_some']
    rw [if_neg (by simp [hm])]
  · intro hm
    refine ⟨AppSql.updateOrbit o (coalesce o.epoch o.epoch_mjd) db.orbits[j], ?_,
      updateOrbit_keeps _ _ _⟩
    simp only [List.getElem?_map, List.getElem?_eq_getElem hj, Option.map_some']
    rw [if_pos hm]

/-- Counterexample to C2 as stated: `insercao_csv.py`'s
`insert_orbit_if_new` (a cited implementation) overwrites an existing
`rms` 5.0 with the incoming 7.0, and even `app_sql_client.py`'s version
replaces a non-null empty-string `equinox`. -/
theorem insert_orbit_overwrite_cex :
    sampleOrbit.rms = some 5 ∧ sampleOrbit.equinox = some "" ∧
    ((Insercao.insert_orbit_if_new ⟨[], [sampleOrbit], []⟩ sampleOrbArgs
      ⟨2025, 1, 1⟩).2.orbits.map (fun r => r.rms) = [some 7]) ∧
    ((AppSql.insert_orbit_if_new ⟨[], [sampleOrbit], []⟩ sampleOrbArgs
      ⟨2025, 1, 1⟩).2.orbits.map (fun r => r.equinox) = [some "B1950"]) := by
  decide

/-- Witness for C2: the fill-only update applied to a concrete one-orbit
database with a same-owner update. -/
theorem insert_orbit_update_fills_only_witness :
    (AppSql.insert_orbit_if_new ⟨[], [sampleOrbit], []⟩ sampleOrbArgs ⟨2025, 1, 1⟩).1 = false ∧
    ∃ u, (AppSql.insert_orbit_if_new ⟨[], [sampleOrbit], []⟩ sampleOrbArgs
      ⟨2025, 1, 1⟩).2.orbits[0]? = some u ∧ OrbMergeKeeps sampleOrbit u := by
  have H := insert_orbit_update_fills_only ⟨[], [sampleOrbit], []⟩ sampleOrbArgs
    ⟨2025, 1, 1⟩ sampleOrbit (by decide) (by decide)
  exact ⟨H.1, by simpa using (H.2.2.2 0 (by decide)).2 (by decide)⟩

/-! ### C3: owner-conflict skip -/

/-- Claim C3 (amended): whenever `app_sql_client.py`'s
`insert_orbit_if_new` finds an existing Orbit row whose stored
`id_internal` differs from the requested one (both present), the update
is skipped and the database — including the orbit's asteroid
association — is left completely unchanged.  (`insercao_csv.py`'s version
has no such guard and reassigns the orbit; see the counterexample.) -/
theorem insert_orbit_skips_on_owner_conflict (db : DB) (o : OrbArgs) (today : Date)
    (r0 : OrbitRow)
    (hfind : db.orbits.find? (fun r => r.id_orbita == o.orbit_id) = some r0)
    (hdiff : differentOwner r0.id_internal o.id_internal = true) :
    AppSql.insert_orbit_if_new db o today = (false, db) := by
  simp only [AppSql.insert_orbit_if_new, hfind, hdiff]
  rfl

/-- Counterexample to C3 as stated: `insercao_csv.py`'s
`insert_orbit_if_new` (a cited implementation) updates an orbit owned by
asteroid 1 with data for asteroid 2 and reassigns the association. -/
theorem insert_orbit_reassign_cex :
    sampleOrbit.id_internal = some 1 ∧
    ((Insercao.insert_orbit_if_new ⟨[], [sampleOrbit], []⟩
      { sampleOrbArgs with id_internal := some 2 } ⟨2025, 1, 1⟩).2.orbits.map
        (fun r => r.id_internal) = [some 2]) := by
  decide

/-- Witness for C3: the skip applied to a concrete database where the
stored owner is 1 and the requested owner is 3. -/
theorem insert_orbit_skips_witness :
    AppSql.insert_orbit_if_new ⟨[], [sampleOrbit], []⟩
      { sampleOrbArgs with id_internal := some 3 } ⟨2025, 1, 1⟩ =
      (false, ⟨[], [sampleOrbit], []⟩) :=
  insert_orbit_skips_on_owner_conflict _ _ _ sampleOrbit (by decide) (by decide)

/-! ### C4: identity resolution -/

theorem lookupNeo_cons (k' : String) (x : Int) (m : List (String × Int)) (k : String) :
    lookupNeo ((k', x) :: m) k = if k' = k then some x else lookupNeo m k := by
  by_cases h : k' = k
  · subst h; simp [lookupNeo, List.find?_cons_of_pos]
  · simp only [lookupNeo, if_neg h]
    rw [List.find?_cons_of_neg]
    simp [h]

theorem lookupSpk_cons (s' : Int) (x : Int) (m : List (Int × Int)) (s : Int) :
    lookupSpk ((s', x) :: m) s = if s' = s then some x else lookupSpk m s := by
  by_cases h : s' = s
  · subst h; simp [lookupSpk, List.find?_cons_of_pos]
  · simp only [lookupSpk, if_neg h]
    rw [List.find?_cons_of_neg]
    simp [h]

theorem lookupNeo_mono (st : ResState) (nk : Option String) (sk : Option Int)
    (k : String) (v : Int) (h : lookupNeo st.neo_map k = some v) :
    lookupNeo (resolveIdentity st nk sk).2.neo_map k = some v := by
  unfold resolveIdentity
  rcases nk with _ | k'
  · rcases sk with _ | s
    · exact h
    · cases hs : lookupSpk st.spk_map s <;> simp [hs, h]
  · cases hk' : lookupNeo st.neo_map k' with
    | some idv => simp [hk', h]
    | none =>
      have hkk : k' ≠ k := fun he => by rw [he, h] at hk'; exact Option.noConfusion hk'
      rcases sk with _ | s
      · simp [hk', lookupNeo_cons, hkk, h]
      · cases hs : lookupSpk st.spk_map s <;>
          simp [hk', hs, lookupNeo_cons, hkk, h]

theorem lookupSpk_mono (st : ResState) (nk : Option String) (sk : Option Int)
    (s : Int) (v : Int) (h : lookupSpk st.spk_map s = some v) :
    lookupSpk (resolveIdentity st nk sk).2.spk_map s = some v := by
  unfold resolveIdentity
  rcases nk with _ | k'
  · rcases sk with _ | s'
    · exact h
    · cases hs : lookupSpk st.spk_map s' with
      | some idv => simp [hs, h]
      | none =>
        have hss : s' ≠ s := fun he => by rw [he, h] at hs; exact Option.noConfusion hs
        simp [hs, lookupSpk_cons, hss, h]
  · cases hk' : lookupNeo st.neo_map k' with
    | some idv => simp [hk', h]
    | none =>
      rcases sk with _ | s'
      · simp [hk', h]
      · cases hs : lookupSpk st.spk_map s' with
        | some idv => simp [hk', hs, h]
        | none =>
          have hss : s' ≠ s := fun he => by rw [he, h] at hs; exact Option.noConfusion hs
          simp [hk', hs, lookupSpk_cons, hss, h]

theorem resolve_found_neo (st : ResState) (k : String) (sk : Option Int) (v : Int)
    (h : lookupNeo st.neo_map k = some v) :
    (resolveIdentity st (some k) sk).1 = some v := by
  simp [resolveIdentity, h]

theorem resolve_assign_neo (st : ResState) (k : String) (sk : Option Int) :
    ∃ v, (resolveIdentity st (some k) sk).1 = some v ∧
      lookupNeo (resolveIdentity st (some k) sk).2.neo_map k = some v := by
  cases hk : lookupNeo st.neo_map k with
  | some idv => refine ⟨idv, ?_, ?_⟩ <;> simp [resolveIdentity, hk]
  | none =>
    rcases sk with _ | s
    · refine ⟨st.next_id, ?_, ?_⟩ <;> simp [resolveIdentity, hk, lookupNeo_cons]
    · cases hs : lookupSpk st.spk_map s with
      | some idv =>
        refine ⟨idv, ?_, ?_⟩ <;> simp [resolveIdentity, hk, hs, lookupNeo_cons]
      | none =>
        refine ⟨st.next_id, ?_, ?_⟩ <;> simp [resolveIdentity, hk, hs, lookupNeo_cons]

theorem resolve_assign_spk (st : ResState) (s : Int) :
    ∃ v, (resolveIdentity st none (some s)).1 = some v ∧
      lookupSpk (resolveIdentity st none (some s)).2.spk_map s = some v := by
  cases hs : lookupSpk st.spk_map s with
  | some idv => refine ⟨idv, ?_, ?_⟩ <;> simp [resolveIdentity, hs]
  | none => refine ⟨st.next_id, ?_, ?_⟩ <;> simp [resolveIdentity, hs, lookupSpk_cons]

theorem runResolve_length (rows : List (Option String × Option Int)) :
    ∀ st : ResState, (runResolve st rows).1.length = rows.length := by
  induction rows with
  | nil => intro st; rfl
  | cons r rs ih => intro st; simp [runResolve, ih]

theorem runResolve_known_neo (rows : List (Option String × Option Int)) :
    ∀ (st : ResState) (k : String) (v : Int), lookupNeo st.neo_map k = some v →
      ∀ j, (hj : j < rows.length) → rowKey rows[j].1 = some k →
        (runResolve st rows).1[j]? = some (some v) := by
  induction rows with
  | nil => intro st k v _ j hj; simp at hj
  | cons r rs ih =>
    intro st k v hv j hj hkj
    cases j with
    | zero =>
      simp only [List.getElem_cons_zero] at hkj
      have hrr : (runResolve st (r :: rs)).1
          = (resolveIdentity st (rowKey r.1) r.2).1 ::
            (runResolve (resolveIdentity st (rowKey r.1) r.2).2 rs).1 := rfl
      rw [hrr, List.getElem?_cons_zero, hkj, resolve_found_neo st k r.2 v hv]
    | succ j' =>
      simp only [List.getElem_cons_succ] at hkj
      simp only [runResolve, List.getElem?_cons_succ]
      exact ih (resolveIdentity st (rowKey r.1) r.2).2 k v
        (lookupNeo_mono st (rowKey r.1) r.2 k v hv) j'
        (by simpa using Nat.lt_of_succ_lt_succ hj) hkj

theorem resolve_found_spk (st : ResState) (s : Int) (v : Int)
    (h : lookupSpk st.spk_map s = some v) :
    (resolveIdentity st none (some s)).1 = some v := by
  simp [resolveIdentity, h]

theorem runResolve_known_spk (rows : List (Option String × Option Int)) :
    ∀ (st : ResState) (s : Int) (v : Int), lookupSpk st.spk_map s = some v →
      ∀ j, (hj : j < rows.length) → rows[j].1 = none → rows[j].2 = some s →
        (runResolve st rows).1[j]? = some (some v) := by
  induction rows with
  | nil => intro st s v _ j hj; simp at hj
  | cons r rs ih =>
    intro st s v hv j hj h1 h2
    cases j with
    | zero =>
      simp only [List.getElem_cons_zero] at h1 h2
      simp only [runResolve, List.getElem?_cons_zero, Option.some.injEq]
      rw [h1, h2]
      simpa [rowKey] using resolve_found_spk st s v hv
    | succ j' =>
      simp only [List.getElem_cons_succ] at h1 h2
      simp only [runResolve, List.getElem?_cons_succ]
      exact ih (resolveIdentity st (rowKey r.1) r.2).2 s v
        (lookupSpk_mono st (rowKey r.1) r.2 s v hv) j'
        (by simpa using Nat.lt_of_succ_lt_succ hj) h1 h2

theorem runResolve_pair_neo (rows : List (Option String × Option Int)) :
    ∀ (st : ResState) (i j : Nat), i < j → (hj : j < rows.length) → ∀ k,
      (hi : i < rows.length) → rowKey rows[i].1 = some k → rowKey rows[j].1 = some k →
      (runResolve st rows).1[i]? = (runResolve st rows).1[j]? := by
  induction rows with
  | nil => intro st i j _ hj; simp at hj
  | cons r rs ih =>
    intro st i j hij hj k hi hki hkj
    cases i with
    | zero =>
      simp only [List.getElem_cons_zero] at hki
      cases j with
      | zero => exact absurd hij (by omega)
      | succ j' =>
        simp only [List.getElem_cons_succ] at hkj
        simp only [runResolve, List.getElem?_cons_zero, List.getElem?_cons_succ]
        obtain ⟨v, hv1, hv2⟩ := resolve_assign_neo st k r.2
        rw [hki, hv1]
        exact (runResolve_known_neo rs _ k v hv2 j'
          (by simpa using Nat.lt_of_succ_lt_succ hj) hkj).symm
    | succ i' =>
      cases j with
      | zero => exact absurd hij (by omega)
      | succ j' =>
        simp only [List.getElem_cons_succ] at hki hkj
        simp only [runResolve, List.getElem?_cons_succ]
        exact ih _ i' j' (by omega) (by simpa using Nat.lt_of_succ_lt_succ hj) k
          (by simpa using Nat.lt_of_succ_lt_succ hi) hki hkj

theorem runResolve_pair_spk (rows : List (Option String × Option Int)) :
    ∀ (st : ResState) (i j : Nat), i < j → (hj : j < rows.length) → ∀ s : Int,
      (hi : i < rows.length) → rows[i].1 = none → rows[j].1 = none →
      rows[i].2 = some s → rows[j].2 = some s →
      (runResolve st rows).1[i]? = (runResolve st rows).1[j]? := by
  induction rows with
  | nil => intro st i j _ hj; simp at hj
  | cons r rs ih =>
    intro st i j hij hj s hi h1i h1j h2i h2j
    cases i with
    | zero =>
      simp only [List.getElem_cons_zero] at h1i h2i
      cases j with
      | zero => exact absurd hij (by omega)
      | succ j' =>
        simp only [List.getElem_cons_succ] at h1j h2j
        obtain ⟨v, hv1, hv2⟩ := resolve_assign_spk st s
        have hrr : (runResolve st (r :: rs)).1
            = (resolveIdentity st (rowKey r.1) r.2).1 ::
              (runResolve (resolveIdentity st (rowKey r.1) r.2).2 rs).1 := rfl
        rw [hrr, List.getElem?_cons_zero, List.getElem?_cons_succ, h1i, h2i,
          show (rowKey (none : Option String)) = none from rfl, hv1]
        exact (runResolve_known_spk rs _ s v hv2 j'
          (by simpa using Nat.lt_of_succ_lt_succ hj) h1j h2j).symm
    | succ i' =>
      cases j with
      | zero => exact absurd hij (by omega)
      | succ j' =>
        simp only [List.getElem_cons_succ] at h1i h1j h2i h2j
        simp only [runResolve, List.getElem?_cons_succ]
        exact ih _ i' j' (by omega) (by simpa using Nat.lt_of_succ_lt_succ hj) s
          (by simpa using Nat.lt_of_succ_lt_succ hi) h1i h1j h2i h2j

/-- Claim C4 (amended): within one ingestion run (any seeded state), any
two rows whose natural ids agree case-insensitively are assigned the same
surrogate key — including when either row's SPK-id is null — and any two
rows that both lack a natural id and share an SPK-id are assigned the
same surrogate key.  (Two rows sharing an SPK-id where one also carries a
distinct, already-known natural id can diverge; see the counterexample.) -/
theorem identity_resolution_consistent (st : ResState)
    (rows : List (Option String × Option Int)) :
    (runResolve st rows).1.length = rows.length ∧
    (∀ i j, (hi : i < rows.length) → (hj : j < rows.length) → ∀ k : String,
      rowKey rows[i].1 = some k → rowKey rows[j].1 = some k →
      (runResolve st rows).1[i]? = (runResolve st rows).1[j]?) ∧
    (∀ i j, (hi : i < rows.length) → (hj : j < rows.length) → ∀ s : Int,
      rows[i].1 = none → rows[j].1 = none → rows[i].2 = some s → rows[j].2 = some s →
      (runResolve st rows).1[i]? = (runResolve st rows).1[j]?) := by
  refine ⟨runResolve_length rows st, ?_, ?_⟩
  · intro i j hi hj k hki hkj
    rcases Nat.lt_trichotomy i j with h | h | h
    · exact runResolve_pair_neo rows st i j h hj k hi hki hkj
    · subst h; rfl
    · exact (runResolve_pair_neo rows st j i h hi k hj hkj hki).symm
  · intro i j hi hj s h1i h1j h2i h2j
    rcases Nat.lt_trichotomy i j with h | h | h
    · exact runResolve_pair_spk rows st i j h hj s hi h1i h1j h2i h2j
    · subst h; rfl
    · exact (runResolve_pair_spk rows st j i h hi s hj h1j h1i h2j h2i).symm

/-- Counterexample to C4 as stated: rows 1 and 2 share SPK-id 5 and no
natural id, yet resolve to surrogate keys 1 and 2 — a row resolved via an
already-known natural id ("x", row 1) does not register its SPK-id. -/
theorem identity_resolution_spk_cex :
    (runResolve ⟨[], [], 1⟩
      [(some "X", none), (some "x", some 5), (some "y", some 5)]).1
      = [some 1, some 1, some 2] := by
  decide

/-- Witness for C4: the case-insensitive natural-id collapse applied to a
concrete two-row run ("X" then "x" with null SPK-id). -/
theorem identity_resolution_consistent_witness :
    (runResolve ⟨[], [], 1⟩ [(some "X", none), (some "x", some 5)]).1[0]?
      = (runResolve ⟨[], [], 1⟩ [(some "X", none), (some "x", some 5)]).1[1]? :=
  (identity_resolution_consistent ⟨[], [], 1⟩ _).2.1 0 1 (by decide) (by decide) "x"
    (by decide) (by decide)

/-! ### C5: orbit ownership -/

theorem insert_orbit_if_new_orbits (db : DB) (o : OrbArgs) (today : Date) :
    ((AppSql.insert_orbit_if_new db o today).2.orbits.length = db.orbits.length ∧
     (AppSql.insert_orbit_if_new db o today).2.orbits.drop db.orbits.length = []) ∨
    ∃ r, (AppSql.insert_orbit_if_new db o today).2.orbits = db.orbits ++ [r] ∧
      r.id_internal = o.id_internal ∧ r.id_orbita = o.orbit_id := by
  unfold AppSql.insert_orbit_if_new
  cases hfind : db.orbits.find? (fun r => r.id_orbita == o.orbit_id) with
  | some r0 =>
    left
    by_cases hd : differentOwner r0.id_internal o.id_internal
    · simp [hfind, hd, List.drop_length]
    · simp only [hfind, Bool.not_eq_true] at hd ⊢
      simp [hd, List.drop_length]
  | none =>
    right
    refine ⟨AppSql.newOrbitRow o (pyOrS o.cls "NEA") (coalesce o.epoch o.epoch_mjd)
      (coalesce o.tp_cal (coalesce o.epoch_cal (some today))), ?_, rfl, rfl⟩
    simp [hfind]

/-- Claim C5 (amended): every Orbit row newly inserted by one loader
iteration carries exactly the surrogate key resolved for that row — which
is absent when the row has neither natural key — and its `id_orbita` is
either the row's own orbit id or the synthesized `"MPC<sequence>"`. -/
theorem orbit_rows_carry_resolved_key (st : LoaderState) (row : CsvRow)
    (now : Nat) (today : Date) :
    ((processRow st row now today).db.orbits.length = st.db.orbits.length ∧
     (processRow st row now today).db.orbits.drop st.db.orbits.length = []) ∨
    ∃ r, (processRow st row now today).db.orbits = st.db.orbits ++ [r] ∧
      r.id_internal = (resolveIdentity st.res (rowKey (norm_text row.id)) row.spkid).1 ∧
      r.id_orbita = (match norm_text row.orbit_id_c with
                     | some v => v
                     | none => "MPC" ++ Nat.repr st.mpc_seq) := by
  have h := insert_orbit_if_new_orbits
    { st.db with
      asteroids := rowAsteroids st row now,
      classes := upsert_class st.db.classes row.cls row.cls_desc }
    (rowOrbArgs st row today) today
  have hoid : (rowOrbArgs st row today).orbit_id
      = (match norm_text row.orbit_id_c with
         | some v => v
         | none => "MPC" ++ Nat.repr st.mpc_seq) := by
    show (rowOid st row).1 = _
    unfold rowOid
    cases norm_text row.orbit_id_c <;> rfl
  have hid : (rowOrbArgs st row today).id_internal
      = (resolveIdentity st.res (rowKey (norm_text row.id)) row.spkid).1 := rfl
  rw [← hoid, ← hid]
  exact h

/-- Counterexample to C5 as stated: a row with neither `id` nor `spkid`
still inserts an Orbit row ("MPC1"), with a NULL `id_internal` — an orbit
belonging to no asteroid — while no Asteroid row is created. -/
theorem orbit_row_without_asteroid_cex :
    (processRow ⟨⟨[], [], 1⟩, 1, ⟨[], [], []⟩⟩ keylessRow 0 ⟨2025, 1, 1⟩).db.orbits.map
      (fun r => (r.id_orbita, r.id_internal)) = [("MPC1", none)] ∧
    (processRow ⟨⟨[], [], 1⟩, 1, ⟨[], [], []⟩⟩ keylessRow 0 ⟨2025, 1, 1⟩).db.asteroids
      = [] := by
  decide

/-! ### C7: orbital derivation -/

/-- Claim C7 (amended): orbital derivation fills `q = a(1-e)` and
`ad = a(1+e)` exactly when the target is absent and both `a` and `e` are
present; `per = 360/n` and `per_y = per/365.25` when `per` is absent and
`n` is present and nonzero; `tp = epoch - ma/n` (with its calendar date
via the Modified-Julian-Day conversion) when `tp` is absent, `epoch` and
`n` are present and nonzero, and `ma` is present; each derivation is
otherwise skipped, and a=1.5, e=0.2 yields q = 1.2 and ad = 1.8.
(A present-but-zero `n` or `epoch` skips the `per`/`tp` derivations; see
the counterexample.) -/
theorem derive_elements_correct (x : DerivIn) :
    (∀ av ev, x.q = none → x.a = some av → x.e = some ev →
      (deriveElements x).q = some (av * (1 - ev))) ∧
    (x.q ≠ none → (deriveElements x).q = x.q) ∧
    (x.q = none → x.a = none ∨ x.e = none → (deriveElements x).q = none) ∧
    (∀ av ev, x.ad = none → x.a = some av → x.e = some ev →
      (deriveElements x).ad = some (av * (1 + ev))) ∧
    (x.ad ≠ none → (deriveElements x).ad = x.ad) ∧
    (x.ad = none → x.a = none ∨ x.e = none → (deriveElements x).ad = none) ∧
    (∀ nv, x.per = none → x.n = some nv → nv ≠ 0 →
      (deriveElements x).per = some (360 / nv) ∧
      (deriveElements x).per_y = some (360 / nv / 365.25)) ∧
    (x.per ≠ none → (deriveElements x).per = x.per ∧
      (deriveElements x).per_y = x.per_y) ∧
    (x.per = none → x.n = none ∨ x.n = some 0 →
      (deriveElements x).per = none ∧ (deriveElements x).per_y = x.per_y) ∧
    (∀ ev nv mv, x.tp = none → x.epoch = some ev → ev ≠ 0 → x.n = some nv →
      nv ≠ 0 → x.ma = some mv →
      (deriveElements x).tp = some (ev - mv / nv) ∧
      (deriveElements x).tp_cal = some (mjd_to_date (ev - mv / nv - 2400000.5))) ∧
    (x.tp ≠ none → (deriveElements x).tp = x.tp ∧
      (deriveElements x).tp_cal = x.tp_cal) ∧
    (x.tp = none → ¬(qTruthy x.epoch = true ∧ qTruthy x.n = true ∧ x.ma ≠ none) →
      (deriveElements x).tp = none ∧ (deriveElements x).tp_cal = x.tp_cal) ∧
    (x.q = none → x.ad = none → x.a = some (3 / 2) → x.e = some (1 / 5) →
      (deriveElements x).q = some (6 / 5) ∧ (deriveElements x).ad = some (9 / 5)) := by
  refine ⟨?_, ?_, ?_, ?_, ?_, ?_, ?_, ?_, ?_, ?_, ?_, ?_, ?_⟩
  · intro av ev h1 h2 h3
    simp [deriveElements, h1, h2, h3]
  · intro h1
    obtain ⟨v, hv⟩ := Option.ne_none_iff_exists'.mp h1
    simp [deriveElements, hv]
  · intro h1 h2
    rcases h2 with h2 | h2 <;> simp [deriveElements, h1, h2]
  · intro av ev h1 h2 h3
    simp [deriveElements, h1, h2, h3]
  · intro h1
    obtain ⟨v, hv⟩ := Option.ne_none_iff_exists'.mp h1
    simp [deriveElements, hv]
  · intro h1 h2
    rcases h2 with h2 | h2 <;> simp [deriveElements, h1, h2]
  · intro nv h1 h2 h3
    have hp : (360 : ℚ) / nv ≠ 0 := div_ne_zero (by norm_num) h3
    constructor <;> simp [deriveElements, h1, h2, h3, hp]
  · intro h1
    obtain ⟨v, hv⟩ := Option.ne_none_iff_exists'.mp h1
    constructor <;> simp [deriveElements, hv]
  · intro h1 h2
    rcases h2 with h2 | h2 <;> constructor <;> simp [deriveElements, h1, h2]
  · intro ev nv mv h1 h2 h3 h4 h5 h6
    have ht : qTruthy x.epoch = true ∧ qTruthy x.n = true ∧ x.ma ≠ none := by
      simp [qTruthy, h2, h3, h4, h5, h6]
    constructor <;> simp [deriveElements, h1, h2, h4, h6, ht, qTruthy, h3, h5]
  · intro h1
    obtain ⟨v, hv⟩ := Option.ne_none_iff_exists'.mp h1
    constructor <;> simp [deriveElements, hv]
  · intro h1 h2
    constructor <;> simp [deriveElements, h1, h2]
  · intro h1 h2 h3 h4
    constructor <;> simp [deriveElements, h1, h2, h3, h4] <;> norm_num

/-- Counterexample to C7 as stated: with `tp` absent and `epoch = 0.0`,
`n = 2.0`, `ma = 4.0` all present, the claim requires `tp = epoch - ma/n
= -2.0`, but the code's truthiness test (`if tp is None and epoch and n
and ma is not None`) skips the derivation and leaves `tp` absent. -/
theorem derive_tp_skipped_cex :
    (deriveElements
      ⟨none, none, none, none, some 2, none, none, none, some 0, some 4, none⟩).tp
      = none := by
  decide

/-- Witness for C7: the `q = a(1-e)` derivation applied at a = 3/2,
e = 1/5. -/
theorem derive_elements_correct_witness :
    (deriveElements
      ⟨none, some (3 / 2), some (1 / 5), none, none, none, none, none, none, none,
       none⟩).q = some (3 / 2 * (1 - 1 / 5)) :=
  (derive_elements_correct _).1 (3 / 2) (1 / 5) rfl rfl rfl

/-! ### C9: Julian-day conversions -/

theorem isLeap_iff (y : Nat) :
    isLeap y = true ↔ ((y % 4 = 0 ∧ y % 100 ≠ 0) ∨ y % 400 = 0) := by
  simp [isLeap]

theorem daysBeforeYear_succ (y : Nat) (h : 1 ≤ y) :
    daysBeforeYear (y + 1) = daysBeforeYear y + yearLen y := by
  obtain ⟨p, rfl⟩ : ∃ p, y = p + 1 := ⟨y - 1, by omega⟩
  simp only [daysBeforeYear, yearLen, Nat.add_sub_cancel]
  rw [Nat.succ_div p 4, Nat.succ_div p 400, Nat.succ_div p 100]
  by_cases hle : isLeap (p + 1)
  · rw [if_pos hle]
    have hl := (isLeap_iff (p + 1)).mp hle
    split_ifs <;> omega
  · rw [if_neg hle]
    have hP : ¬(((p + 1) % 4 = 0 ∧ (p + 1) % 100 ≠ 0) ∨ (p + 1) % 400 = 0) :=
      fun hc => hle ((isLeap_iff _).mpr hc)
    push_neg at hP
    by_cases h4 : (p + 1) % 4 = 0
    · have h100 := hP.1 h4
      have h400 := hP.2
      split_ifs <;> omega
    · have h400 := hP.2
      split_ifs <;> omega

theorem yearLen_ge (y : Nat) : 365 ≤ yearLen y := by
  unfold yearLen; split_ifs <;> omega

theorem daysBeforeYear_mono (a b : Nat) (h1 : 1 ≤ a) (h : a ≤ b) :
    daysBeforeYear a ≤ daysBeforeYear b := by
  induction b with
  | zero => omega
  | succ n ih =>
    rcases Nat.lt_or_ge a (n + 1) with hl | hg
    · have hn : 1 ≤ n := by omega
      calc daysBeforeYear a ≤ daysBeforeYear n := ih (by omega)
        _ ≤ daysBeforeYear (n + 1) := by rw [daysBeforeYear_succ n hn]; omega
    · have : a = n + 1 := by omega
      subst this
      exact Nat.le_refl _

theorem goYear_correct (k : Nat) : ∀ (y₀ fuel r : Nat), 1 ≤ y₀ → 1 ≤ r →
    r ≤ yearLen (y₀ + k) →
    daysBeforeYear (y₀ + k) - daysBeforeYear y₀ + r ≤ fuel →
    goYear fuel y₀ (daysBeforeYear (y₀ + k) - daysBeforeYear y₀ + r) = (y₀ + k, r) := by
  induction k with
  | zero =>
    intro y₀ fuel r h0 h1 h2 hf
    simp only [Nat.add_zero] at h2 ⊢
    rw [Nat.sub_self]
    simp only [Nat.zero_add]
    cases fuel with
    | zero => omega
    | succ f => simp [goYear, h2]
  | succ k ih =>
    intro y₀ fuel r h0 h1 h2 hf
    have hsucc := daysBeforeYear_succ y₀ h0
    have hmono := daysBeforeYear_mono (y₀ + 1) (y₀ + (k + 1)) (by omega) (by omega)
    have hlen0 := yearLen_ge y₀
    have hlen1 := yearLen_ge (y₀ + (k + 1))
    have hD : daysBeforeYear (y₀ + (k + 1)) - daysBeforeYear y₀ + r
        = (daysBeforeYear ((y₀ + 1) + k) - daysBeforeYear (y₀ + 1) + r) + yearLen y₀ := by
      have he : (y₀ + 1) + k = y₀ + (k + 1) := by omega
      rw [he]
      omega
    have hgt : ¬ (daysBeforeYear (y₀ + (k + 1)) - daysBeforeYear y₀ + r ≤ yearLen y₀) := by
      omega
    cases fuel with
    | zero => omega
    | succ f =>
      rw [goYear, if_neg hgt]
      have he2 : daysBeforeYear (y₀ + (k + 1)) - daysBeforeYear y₀ + r - yearLen y₀
          = daysBeforeYear ((y₀ + 1) + k) - daysBeforeYear (y₀ + 1) + r := by
        omega
      rw [he2]
      have := ih (y₀ + 1) f r (by omega) h1 (by rw [show (y₀ + 1) + k = y₀ + (k + 1) from by omega]; exact h2) (by omega)
      rw [this, show (y₀ + 1) + k = y₀ + (k + 1) from by omega]

theorem daysBeforeMonth_succ (y m : Nat) (h1 : 1 ≤ m) (h2 : m ≤ 11) :
    daysBeforeMonth y (m + 1) = daysBeforeMonth y m + daysInMonth y m := by
  interval_cases m <;>
    simp [daysBeforeMonth, daysInMonth] <;> split_ifs <;> omega

theorem daysInMonth_ge (y m : Nat) : 28 ≤ daysInMonth y m := by
  unfold daysInMonth; split_ifs <;> omega

theorem daysBeforeMonth_mono (y a b : Nat) (h1 : 1 ≤ a) (h2 : a ≤ b) (h3 : b ≤ 12) :
    daysBeforeMonth y a ≤ daysBeforeMonth y b := by
  induction b with
  | zero => omega
  | succ n ih =>
    rcases Nat.lt_or_ge a (n + 1) with hl | hg
    · have hle : daysBeforeMonth y a ≤ daysBeforeMonth y n := ih (by omega) (by omega)
      have := daysBeforeMonth_succ y n (by omega) (by omega)
      omega
    · have : a = n + 1 := by omega
      subst this
      exact Nat.le_refl _

theorem dBM_day_bounds (y m d : Nat) (h1 : 1 ≤ m) (h2 : m ≤ 12) (h3 : 1 ≤ d)
    (h4 : d ≤ daysInMonth y m) :
    1 ≤ daysBeforeMonth y m + d ∧ daysBeforeMonth y m + d ≤ yearLen y := by
  interval_cases m <;>
    simp [daysBeforeMonth, daysInMonth, yearLen] at h4 ⊢ <;>
    split_ifs at h4 ⊢ <;> omega

theorem goMonth_correct (y : Nat) (k : Nat) : ∀ (m₀ fuel r : Nat), 1 ≤ m₀ →
    m₀ + k ≤ 12 → 1 ≤ r → r ≤ daysInMonth y (m₀ + k) → k + 1 ≤ fuel →
    goMonth y fuel m₀ (daysBeforeMonth y (m₀ + k) - daysBeforeMonth y m₀ + r)
      = (m₀ + k, r) := by
  induction k with
  | zero =>
    intro m₀ fuel r h0 h12 h1 h2 hf
    simp only [Nat.add_zero] at h2 ⊢
    rw [Nat.sub_self]
    simp only [Nat.zero_add]
    cases fuel with
    | zero => omega
    | succ f => simp [goMonth, h2]
  | succ k ih =>
    intro m₀ fuel r h0 h12 h1 h2 hf
    have hsucc := daysBeforeMonth_succ y m₀ h0 (by omega)
    have hmono := daysBeforeMonth_mono y (m₀ + 1) (m₀ + (k + 1)) (by omega) (by omega) h12
    have hdim0 := daysInMonth_ge y m₀
    have hdim1 := daysInMonth_ge y (m₀ + (k + 1))
    have hgt : ¬ (daysBeforeMonth y (m₀ + (k + 1)) - daysBeforeMonth y m₀ + r
        ≤ daysInMonth y m₀) := by
      have he : (m₀ + 1) + k = m₀ + (k + 1) := by omega
      omega
    cases fuel with
    | zero => omega
    | succ f =>
      rw [goMonth, if_neg hgt]
      have he2 : daysBeforeMonth y (m₀ + (k + 1)) - daysBeforeMonth y m₀ + r
          - daysInMonth y m₀
          = daysBeforeMonth y ((m₀ + 1) + k) - daysBeforeMonth y (m₀ + 1) + r := by
        have he : (m₀ + 1) + k = m₀ + (k + 1) := by omega
        rw [he]
        omega
      rw [he2]
      have := ih (m₀ + 1) f r (by omega) (by omega) h1
        (by rw [show (m₀ + 1) + k = m₀ + (k + 1) from by omega]; exact h2) (by omega)
      rw [this, show (m₀ + 1) + k = m₀ + (k + 1) from by omega]

theorem fromOrd_toOrd (d : Date) (hv : d.Valid) : fromOrd (toOrd d) = d := by
  obtain ⟨h1, h2, h3, h4, h5, h6⟩ := hv
  have hb := dBM_day_bounds d.year d.month d.day h3 h4 h5 h6
  have hy1 : 1 + (d.year - 1) = d.year := by omega
  have hdb1 : daysBeforeYear 1 = 0 := rfl
  have ht : toOrd d = daysBeforeYear (1 + (d.year - 1)) - daysBeforeYear 1
      + (daysBeforeMonth d.year d.month + d.day) := by
    unfold toOrd
    rw [hy1, hdb1]
    omega
  have hy := goYear_correct (d.year - 1) 1 (toOrd d)
    (daysBeforeMonth d.year d.month + d.day) (by omega) hb.1
    (by rw [hy1]; exact hb.2) (by omega)
  rw [hy1] at hy
  have hm1 : 1 + (d.month - 1) = d.month := by omega
  have hdm1 : daysBeforeMonth d.year 1 = 0 := rfl
  have hm := goMonth_correct d.year (d.month - 1) 1 12 d.day (by omega)
    (by omega) h5 (by rw [hm1]; exact h6) (by omega)
  rw [hm1, hdm1] at hm
  simp only [Nat.sub_zero] at hm
  rw [hy1] at ht
  rw [← ht] at hy
  unfold fromOrd
  rw [hy]
  simp only
  rw [hm]

theorem ratTrunc_intCast (k : ℤ) : ratTrunc (k : ℚ) = k := by
  simp [ratTrunc, Rat.num_intCast, Rat.den_intCast, Int.tdiv_one]

/-- Claim C9: the Modified-Julian-Day conversions are exact inverses on
integer-day inputs — `mjd_to_date (date_to_mjd d) = d` for every calendar
date `d` — with Modified Julian Day 0 equal to 1858-11-17 and Julian Day
equal to Modified Julian Day + 2400000.5. -/
theorem mjd_conversions_inverse :
    (∀ d : Date, d.Valid → mjd_to_date (date_to_mjd d) = d) ∧
    mjd_to_date 0 = ⟨1858, 11, 17⟩ ∧
    date_to_mjd ⟨1858, 11, 17⟩ = 0 ∧
    (∀ m : ℚ, jd_of_mjd m - m = 2400000.5) := by
  refine ⟨?_, ?_, ?_, fun m => by simp [jd_of_mjd]⟩
  · intro d hv
    unfold mjd_to_date date_to_mjd
    rw [ratTrunc_intCast]
    have he : ((mjdEpochOrd : ℤ) + ((toOrd d : ℤ) - (mjdEpochOrd : ℤ))).toNat
        = toOrd d := by omega
    rw [he]
    exact fromOrd_toOrd d hv
  · unfold mjd_to_date
    have h0 : ratTrunc 0 = 0 := by decide
    rw [h0]
    have he : ((mjdEpochOrd : ℤ) + 0).toNat = toOrd ⟨1858, 11, 17⟩ := by decide
    rw [he]
    exact fromOrd_toOrd ⟨1858, 11, 17⟩ (by decide)
  · unfold date_to_mjd
    rw [show toOrd ⟨1858, 11, 17⟩ = 678576 from by decide]
    simp [mjdEpochOrd]

/-- Witness for C9: the round trip applied at the concrete date
2025-11-21. -/
theorem mjd_conversions_inverse_witness :
    Date.Valid ⟨2025, 11, 21⟩ ∧
    mjd_to_date (date_to_mjd ⟨2025, 11, 21⟩) = ⟨2025, 11, 21⟩ :=
  ⟨by decide, mjd_conversions_inverse.1 ⟨2025, 11, 21⟩ (by decide)⟩

/-! ### C6: header normalization -/

theorem euhAux_length (l : List String) : ∀ cnt, (euhAux cnt l).length = l.length := by
  induction l with
  | nil => intro cnt; rfl
  | cons c rest ih => intro cnt; simp [euhAux, ih]

theorem euhAux_getElem (l : List String) : ∀ (cnt : String → Nat) (i : Nat),
    (hi : i < l.length) →
    (euhAux cnt l)[i]? = some (
      if cnt l[i] + (l.take i).count l[i] = 0 then l[i]
      else dupName l[i] (cnt l[i] + (l.take i).count l[i] + 1)) := by
  induction l with
  | nil => intro cnt i hi; simp at hi
  | cons c0 rest ih =>
    intro cnt i hi
    cases i with
    | zero =>
      simp [euhAux]
    | succ i' =>
      have hi' : i' < rest.length := by simpa using Nat.lt_of_succ_lt_succ hi
      have hx := ih (bumpCount cnt c0 (cnt c0 + 1)) i' hi'
      simp only [euhAux, List.getElem?_cons_succ]
      rw [hx]
      simp only [List.getElem_cons_succ, List.take_succ_cons, List.count_cons]
      by_cases hc : rest[i'] = c0
      · have he : ∀ a b : Nat, a + 1 + b = a + (b + 1) := by omega
        simp [bumpCount, hc, he]
      · have hne : (c0 == rest[i']) = false := by
          simp [Ne.symm hc]
        simp [bumpCount, hc, hne]

theorem count_take_succ_self (l : List String) (i : Nat) (hi : i < l.length)
    (c : String) (hc : l[i] = c) :
    (l.take (i + 1)).count c = (l.take i).count c + 1 := by
  rw [List.take_succ, List.getElem?_eq_getElem hi, hc]
  simp

theorem count_take_mono (l : List String) (c : String) (i j : Nat) (hij : i ≤ j) :
    (l.take i).count c ≤ (l.take j).count c := by
  have hsub : List.Sublist (l.take i) (l.take j) := by
    have : (l.take j).take i = l.take i := by
      rw [List.take_take, Nat.min_eq_left hij]
    rw [← this]
    exact List.take_sublist i (l.take j)
  exact hsub.count_le c

theorem count_take_le (l : List String) (c : String) (i : Nat) :
    (l.take i).count c ≤ l.count c :=
  (List.take_sublist i l).count_le c

theorem ensure_unique_nodup (fields : List String)
    (H1 : ∀ c ∈ fields, ∀ c' ∈ fields, ∀ k ∈ List.range (fields.length + 1),
      2 ≤ k → c ≠ dupName c' k)
    (H2 : fields.count "epoch" ≤ 2)
    (H3 : ∀ c ∈ fields, ∀ c' ∈ fields, ∀ k ∈ List.range (fields.length + 1),
      ∀ k' ∈ List.range (fields.length + 1), 2 ≤ k → 2 ≤ k' →
      ¬(c = c' ∧ k = k') → ¬(c = "epoch" ∧ c' = "epoch") →
      dupName c k ≠ dupName c' k') :
    (ensure_unique_header_fields fields).Nodup := by
  rw [List.nodup_iff_getElem?_ne_getElem?]
  intro i j hij hjlen
  rw [show ensure_unique_header_fields fields = euhAux (fun _ => 0) fields from rfl,
    euhAux_length] at hjlen
  have hilen : i < fields.length := lt_trans hij hjlen
  intro hEq
  rw [show ensure_unique_header_fields fields = euhAux (fun _ => 0) fields from rfl,
    euhAux_getElem fields (fun _ => 0) i hilen,
    euhAux_getElem fields (fun _ => 0) j hjlen] at hEq
  simp only [Nat.zero_add, Option.some.injEq] at hEq
  have hmemi : fields[i] ∈ fields := List.getElem_mem hilen
  have hmemj : fields[j] ∈ fields := List.getElem_mem hjlen
  have hcount_lt : fields[i] = fields[j] →
      (fields.take i).count fields[i] + 1 ≤ (fields.take j).count fields[j] := by
    intro he
    calc (fields.take i).count fields[i] + 1
        = (fields.take (i + 1)).count fields[i] :=
          (count_take_succ_self fields i hilen fields[i] rfl).symm
      _ ≤ (fields.take j).count fields[i] := count_take_mono fields fields[i] (i + 1) j hij
      _ = (fields.take j).count fields[j] := by rw [he]
  have hki_lt : (fields.take i).count fields[i] + 1 ≤ fields.count fields[i] := by
    calc (fields.take i).count fields[i] + 1
        = (fields.take (i + 1)).count fields[i] :=
          (count_take_succ_self fields i hilen fields[i] rfl).symm
      _ ≤ fields.count fields[i] := count_take_le fields fields[i] (i + 1)
  have hkj_lt : (fields.take j).count fields[j] + 1 ≤ fields.count fields[j] := by
    calc (fields.take j).count fields[j] + 1
        = (fields.take (j + 1)).count fields[j] :=
          (count_take_succ_self fields j hjlen fields[j] rfl).symm
      _ ≤ fields.count fields[j] := count_take_le fields fields[j] (j + 1)
  have hcnt_len_i : fields.count fields[i] ≤ fields.length := List.count_le_length _ _
  have hcnt_len_j : fields.count fields[j] ≤ fields.length := List.count_le_length _ _
  by_cases h0i : (fields.take i).count fields[i] = 0 <;>
    by_cases h0j : (fields.take j).count fields[j] = 0
  · rw [if_pos h0i, if_pos h0j] at hEq
    have := hcount_lt hEq
    omega
  · rw [if_pos h0i, if_neg h0j] at hEq
    exact H1 fields[i] hmemi fields[j] hmemj ((fields.take j).count fields[j] + 1)
      (by simp only [List.mem_range]; omega) (by omega) hEq
  · rw [if_neg h0i, if_pos h0j] at hEq
    exact H1 fields[j] hmemj fields[i] hmemi ((fields.take i).count fields[i] + 1)
      (by simp only [List.mem_range]; omega) (by omega) hEq.symm
  · rw [if_neg h0i, if_neg h0j] at hEq
    by_cases hee : fields[i] = "epoch" ∧ fields[j] = "epoch"
    · obtain ⟨he1, he2⟩ := hee
      have hlt := hcount_lt (he1.trans he2.symm)
      rw [he1] at h0i hlt
      rw [he2] at hlt hkj_lt
      omega
    · have hne : ¬(fields[i] = fields[j] ∧
          (fields.take i).count fields[i] + 1 = (fields.take j).count fields[j] + 1) := by
        rintro ⟨he, hk⟩
        have := hcount_lt he
        omega
      exact H3 fields[i] hmemi fields[j] hmemj
        ((fields.take i).count fields[i] + 1) (by simp only [List.mem_range]; omega)
        ((fields.take j).count fields[j] + 1) (by simp only [List.mem_range]; omega)
        (by omega) (by omega) hne hee hEq

/-- Claim C6 (amended): header normalization is deterministic and total,
always producing a list of equal length in which the k-th occurrence of a
duplicated name is renamed — every repeat of "epoch" to "epoch_mpc", any
other repeat with a numeric suffix — and the output names are pairwise
unique provided "epoch" occurs at most twice and no original name or pair
of generated names collides.  (With three occurrences of "epoch" the
output repeats "epoch_mpc"; see the counterexample.) -/
theorem header_normalization_total (fields : List String) :
    (ensure_unique_header_fields fields).length = fields.length ∧
    (∀ i, (hi : i < fields.length) →
      (ensure_unique_header_fields fields)[i]? = some (
        if (fields.take i).count fields[i] = 0 then fields[i]
        else dupName fields[i] ((fields.take i).count fields[i] + 1))) ∧
    ((∀ c ∈ fields, ∀ c' ∈ fields, ∀ k ∈ List.range (fields.length + 1),
        2 ≤ k → c ≠ dupName c' k) →
     fields.count "epoch" ≤ 2 →
     (∀ c ∈ fields, ∀ c' ∈ fields, ∀ k ∈ List.range (fields.length + 1),
        ∀ k' ∈ List.range (fields.length + 1), 2 ≤ k → 2 ≤ k' →
        ¬(c = c' ∧ k = k') → ¬(c = "epoch" ∧ c' = "epoch") →
        dupName c k ≠ dupName c' k') →
     (ensure_unique_header_fields fields).Nodup) := by
  refine ⟨euhAux_length fields _, ?_, ensure_unique_nodup fields⟩
  intro i hi
  have h := euhAux_getElem fields (fun _ => 0) i hi
  simpa using h

/-- Counterexample to C6 as stated: a header with three "epoch" columns
yields "epoch_mpc" twice, so the output is not pairwise unique. -/
theorem header_duplicate_epoch_cex :
    ensure_unique_header_fields ["epoch", "epoch", "epoch"]
      = ["epoch", "epoch_mpc", "epoch_mpc"] ∧
    ¬ (ensure_unique_header_fields ["epoch", "epoch", "epoch"]).Nodup := by
  decide

/-- Witness for C6: the uniqueness guarantee applied to a concrete
six-column header with a duplicated "epoch" and a duplicated "a". -/
theorem header_normalization_total_witness :
    (ensure_unique_header_fields ["id", "spkid", "epoch", "epoch", "a", "a"]).Nodup :=
  (header_normalization_total ["id", "spkid", "epoch", "epoch", "a", "a"]).2.2
    (by decide) (by decide) (by decide)
